import Mathlib

/-!
Shallow embedding of `prt_file.py` from OutpostUniverse/OP2ArtUtils.

The PRT container is a pair of byte streams: the main `.prt` metadata stream
and a companion `.bmp` raster blob.  `PRTFile.Load` parses them into an
in-memory object graph; `PRTFile.Write` serializes the graph back.
Byte streams are modelled as `List Nat` (each element one byte of the file),
Python exceptions (`PRTLoadError`, `struct.error`, `TypeError`) as the
`Except String` monad, and `struct` pack/unpack as explicit little-endian
byte arithmetic.
-/

namespace PRT

/-- A byte stream: the contents of a file as a list of byte values. -/
abbrev Bytes := List Nat

/-- Little-endian interpretation of a list of bytes as a natural number
(the semantics of `struct.unpack` integer fields). -/
def leNat : Bytes → Nat
  | [] => 0
  | b :: bs => b + 256 * leNat bs

/-- Two-byte little-endian encoding of a (small) natural number. -/
def u16le (n : Nat) : Bytes := [n % 256, n / 256 % 256]

/-- Four-byte little-endian encoding of a (small) natural number. -/
def u32le (n : Nat) : Bytes := [n % 256, n / 256 % 256, n / 65536 % 256, n / 16777216 % 256]

/-- Signed 16-bit reinterpretation of a two-byte little-endian value
(the `h` format of `struct`). -/
def toI16 (n : Nat) : Int := if n < 32768 then (n : Int) else (n : Int) - 65536

/-- `PRTFile._ReadAndUnpack` at the byte level: take `n` bytes from the main
stream or raise `PRTLoadError("ran out of data...")`. -/
def readBytes (n : Nat) (s : Bytes) : Except String (Bytes × Bytes) :=
  if n ≤ s.length then .ok (s.take n, s.drop n) else .error "ran out of data"

/-- Read one `<I` field (unsigned 32-bit little-endian). -/
def readU32 (s : Bytes) : Except String (Nat × Bytes) := do
  let (bs, s) ← readBytes 4 s
  .ok (leNat bs, s)

/-- Read one `<B` field (unsigned byte). -/
def readU8 (s : Bytes) : Except String (Nat × Bytes) :=
  match s with
  | b :: s => .ok (b, s)
  | [] => .error "ran out of data"

/-- Read a `<BB` pair (two unsigned bytes). -/
def readU8Pair (s : Bytes) : Except String ((Nat × Nat) × Bytes) :=
  match s with
  | a :: b :: s => .ok ((a, b), s)
  | _ => .error "ran out of data"

/-- Read one `<h` field (signed 16-bit little-endian). -/
def readI16 (s : Bytes) : Except String (Int × Bytes) := do
  let (bs, s) ← readBytes 2 s
  .ok (toI16 (leNat bs), s)

/-- `struct.pack` of a `<B` field: bytes must be in `[0, 255]`. -/
def packU8 (n : Nat) : Except String Bytes :=
  if n < 256 then .ok [n] else .error "struct.error: byte out of range"

/-- `struct.pack` of a `<I` field: values must fit in 32 bits. -/
def packU32 (n : Nat) : Except String Bytes :=
  if n < 4294967296 then .ok (u32le n) else .error "struct.error: u32 out of range"

/-- Two-byte little-endian two's-complement encoding of a signed 16-bit value. -/
def i16le (v : Int) : Bytes := u16le (v.emod 65536).toNat

/-- `struct.pack` of a `<h` field: values must be in `[-32768, 32767]`. -/
def packI16 (v : Int) : Except String Bytes :=
  if -32768 ≤ v ∧ v ≤ 32767 then .ok (i16le v) else .error "struct.error: i16 out of range"

/-- The ASCII bytes of the `b'CPAL'` tag. -/
def tagCPAL : Bytes := [67, 80, 65, 76]

/-- The ASCII bytes of the `b'PPAL'` tag. -/
def tagPPAL : Bytes := [80, 80, 65, 76]

/-- The ASCII bytes of the `b'RIFF'` tag. -/
def tagRIFF : Bytes := [82, 73, 70, 70]

/-- The ASCII bytes of the `b'head'` tag. -/
def tagHead : Bytes := [104, 101, 97, 100]

/-- The ASCII bytes of the `b'data'` tag. -/
def tagData : Bytes := [100, 97, 116, 97]

/-- The ASCII bytes of the `b'BM'` BMP signature. -/
def tagBM : Bytes := [66, 77]

/-- `palette.Color`: in-memory color with red/green/blue/flags channels. -/
structure Color where
  r : Nat
  g : Nat
  b : Nat
  flags : Nat
deriving DecidableEq

/-- `palette.Palette`: an ordered list of colors. -/
structure Palette where
  colors : List Color
deriving DecidableEq

/-- Read a `<4s I` tag/value header (4-byte tag plus 32-bit integer). -/
def readTag (s : Bytes) : Except String ((Bytes × Nat) × Bytes) := do
  let (tag, s) ← readBytes 4 s
  let (n, s) ← readU32 s
  .ok ((tag, n), s)

/-- The body of the `data` tag loop in `_LoadPalettes`: read `n` color entries
of 4 bytes each (`<4B`), appending to the accumulated color list.  On-disk
order is (blue, green, red, flags); in-memory order is (red, green, blue,
flags) — the blue and red channels are swapped. -/
def readColors : Nat → List Color → Bytes → Except String (List Color × Bytes)
  | 0, acc, s => .ok (acc, s)
  | n + 1, acc, s =>
    match s with
    | b0 :: b1 :: b2 :: b3 :: s =>
      readColors n (acc ++ [{ r := b2, g := b1, b := b0, flags := b3 }]) s
    | _ => .error "ran out of data"

/-- The `while num_tags_left > 0` loop of `_LoadPalettes` for one palette
entry.  `fuel` bounds the number of iterations: every iteration consumes at
least 8 bytes of the stream, so any fuel exceeding the stream length makes
the fuel branch unreachable (callers pass `s.length + 1`). -/
def loadPalTags : Nat → Nat → List Color → Bytes → Except String (List Color × Bytes)
  | _, 0, colors, s => .ok (colors, s)
  | 0, _ + 1, _, _ => .error "internal: palette tag loop fuel exhausted"
  | fuel + 1, n + 1, colors, s => do
    let ((tag, sectionSize), s) ← readTag s
    if tag = tagPPAL then
      if sectionSize ≠ 1048 then .error "Unexpected PPAL size"
      else loadPalTags fuel n colors s
    else if tag = tagRIFF then .error "RIFF tag not implemented"
    else if tag = tagHead then
      if sectionSize ≠ 4 then .error "Unexpected head size"
      else do
        let (numTagsLeft, s) ← readU32 s
        loadPalTags fuel numTagsLeft colors s
    else if tag = tagData then
      if sectionSize ≠ 1024 then .error "Unexpected data size"
      else do
        let (colors, s) ← readColors 256 colors s
        loadPalTags fuel n colors s
    else .error "unhandled tag"

/-- The `for i in range(num_palettes)` loop of `_LoadPalettes`. -/
def loadPaletteEntries : Nat → List Palette → Bytes → Except String (List Palette × Bytes)
  | 0, acc, s => .ok (acc, s)
  | n + 1, acc, s => do
    let (colors, s) ← loadPalTags (s.length + 1) 2 [] s
    loadPaletteEntries n (acc ++ [{ colors := colors }]) s

/-- `PRTFile._LoadPalettes`: CPAL header then one entry per palette. -/
def loadPalettes (s : Bytes) : Except String (List Palette × Bytes) := do
  let ((tag, numPalettes), s) ← readTag s
  if tag ≠ tagCPAL then .error "PRT signature was not CPAL"
  else loadPaletteEntries numPalettes [] s

/-- One `<4B` color entry of `_WritePalettes`: written back in
(blue, green, red, flags) order. -/
def writeColor (c : Color) : Except String Bytes :=
  if c.b < 256 ∧ c.g < 256 ∧ c.r < 256 ∧ c.flags < 256 then .ok [c.b, c.g, c.r, c.flags]
  else .error "struct.error: byte out of range"

/-- All color entries of one palette, in order. -/
def writeColors : List Color → Except String Bytes
  | [] => .ok []
  | c :: cs => do
    let b ← writeColor c
    let bs ← writeColors cs
    .ok (b ++ bs)

/-- One palette entry of `_WritePalettes`: `PPAL` (size 1048), `head`
(size 4, count 1), `data` (size 1024) then the 4-byte color entries. -/
def writePalette (p : Palette) : Except String Bytes := do
  let cs ← writeColors p.colors
  .ok (tagPPAL ++ u32le 1048 ++ tagHead ++ u32le 4 ++ u32le 1 ++ tagData ++ u32le 1024 ++ cs)

/-- The palette entries of `_WritePalettes`, concatenated. -/
def writePaletteEntries : List Palette → Except String Bytes
  | [] => .ok []
  | p :: ps => do
    let b ← writePalette p
    let bs ← writePaletteEntries ps
    .ok (b ++ bs)

/-- `PRTFile._WritePalettes`: CPAL header then each palette entry. -/
def writePalettes (ps : List Palette) : Except String Bytes := do
  let n ← packU32 ps.length
  let body ← writePaletteEntries ps
  .ok (tagCPAL ++ n ++ body)

/-- `bitmap.Bitmap`: bitmap metadata plus raw pixel bytes.  `palette` holds
the referenced palette object (`self.palettes[pal_id]`). -/
structure Bitmap where
  palette : Palette
  palette_id : Int
  image_type : Int
  width : Nat
  height : Nat
  data : Bytes
deriving DecidableEq

/-- Row stride rounded up to a 4-byte boundary: `(width + 3) & ~3`. -/
def paddedWidth (w : Nat) : Nat := (w + 3) / 4 * 4

/-- One bitmap record of `_LoadBitmaps`: a `<IIIIhh` record
(paddedWidth, offset, height, width, imageType, paletteId), with the palette
index validated against the palette table, followed by reading
`padded_w * h` pixel bytes from the companion blob at `offset + dataStart`
(a Python file read returns at most the bytes available). -/
def loadOneBitmap (palettes : List Palette) (dataStart : Nat) (bmpFile : Bytes)
    (s : Bytes) : Except String (Bitmap × Bytes) := do
  let (paddedW, s) ← readU32 s
  let (offset, s) ← readU32 s
  let (height, s) ← readU32 s
  let (width, s) ← readU32 s
  let (imageType, s) ← readI16 s
  let (palId, s) ← readI16 s
  if palId < 0 ∨ palId > (palettes.length : Int) - 1 then
    .error "bitmap: palette_id out of range"
  else
    .ok ({ palette := palettes.getD palId.toNat { colors := [] },
           palette_id := palId, image_type := imageType,
           width := width, height := height,
           data := (bmpFile.drop (offset + dataStart)).take (paddedW * height) }, s)

/-- The `for i in range(num_bitmaps)` loop of `_LoadBitmaps`. -/
def loadBitmapEntries (palettes : List Palette) (dataStart : Nat) (bmpFile : Bytes) :
    Nat → List Bitmap → Bytes → Except String (List Bitmap × Bytes)
  | 0, acc, s => .ok (acc, s)
  | n + 1, acc, s => do
    let (bmp, s) ← loadOneBitmap palettes dataStart bmpFile s
    loadBitmapEntries palettes dataStart bmpFile n (acc ++ [bmp]) s

/-- `PRTFile._LoadBitmaps`: read the companion blob's 14-byte BMP header
(`<2s I hh I`; `struct.unpack` fails on a short buffer), validate the `BM`
signature, extract `data_start`, then read the bitmap count and records
from the main stream. -/
def loadBitmaps (palettes : List Palette) (bmpFile : Bytes) (s : Bytes) :
    Except String (List Bitmap × Bytes) := do
  if bmpFile.length < 14 then .error "struct.error: BMP header too short"
  else if bmpFile.take 2 ≠ tagBM then .error "OP2_ART.BMP is not a valid BMP file"
  else
    let dataStart := leNat ((bmpFile.drop 10).take 4)
    let (numBitmaps, s) ← readU32 s
    loadBitmapEntries palettes dataStart bmpFile numBitmaps [] s

/-- Modelled from the spec: `bitmap.Bitmap.WriteBMPToOpenFile` is not under
`src/` (only `prt_file.py` is).  Per spec sections 4.2 and 6, it writes a
minimal BMP container: a 14-byte header whose first two bytes are the magic
`BM` and whose bytes 10..13 hold the 32-bit little-endian offset `dataStart`
of the pixel data, followed by an info header and a 256-entry grayscale
palette (opaque to the codec, filler bytes here) up to
`dataStart = 14 + 40 + 4 * 256 = 1078`, then the raw concatenated pixel
data. -/
def writeBMPFile (data : Bytes) : Bytes :=
  tagBM ++ List.replicate 8 0 ++ u32le 1078 ++ List.replicate 1064 0 ++ data

/-- The per-bitmap loop of `_WriteBitmaps`: emit each `<IIIIhh` metadata
record (with `paddedWidth` recomputed from `width` and `offset` equal to the
running length of the master pixel buffer) and accumulate the master pixel
buffer.  Returns (metadata bytes, master pixel bytes). -/
def writeBitmapRecords : List Bitmap → Nat → Except String (Bytes × Bytes)
  | [], _ => .ok ([], [])
  | bmp :: rest, masterLen => do
    let pw ← packU32 (paddedWidth bmp.width)
    let off ← packU32 masterLen
    let h ← packU32 bmp.height
    let w ← packU32 bmp.width
    let it ← packI16 bmp.image_type
    let pid ← packI16 bmp.palette_id
    let (meta, master) ← writeBitmapRecords rest (masterLen + bmp.data.length)
    .ok (pw ++ off ++ h ++ w ++ it ++ pid ++ meta, bmp.data ++ master)

/-- `PRTFile._WriteBitmaps`: bitmap count and metadata records to the main
stream; the concatenated master pixel buffer to the companion blob. -/
def writeBitmaps (bitmaps : List Bitmap) : Except String (Bytes × Bytes) := do
  let n ← packU32 bitmaps.length
  let (meta, master) ← writeBitmapRecords bitmaps 0
  .ok (n ++ meta, writeBMPFile master)

/-- `Rect` namedtuple: the (unsigned 32-bit) bounding box of an animation. -/
structure Rect where
  left : Nat
  top : Nat
  right : Nat
  bottom : Nat
deriving DecidableEq

/-- `Point` namedtuple for animation offsets (unsigned 32-bit fields). -/
structure Point where
  x : Nat
  y : Nat
deriving DecidableEq

/-- One subframe record: `<hBBhh` fields.  The offset `Point` carries signed
16-bit coordinates, kept here as two `Int` fields. -/
structure Subframe where
  bitmap_id : Int
  unknown : Nat
  subframe_id : Nat
  off_x : Int
  off_y : Int
deriving DecidableEq

/-- One frame: subframe list, the masked `unknown` byte, and the two pairs of
flag-gated optional bytes (`None` when absent). -/
structure Frame where
  subframes : List Subframe
  unknown : Nat
  optional1 : Option Nat
  optional2 : Option Nat
  optional3 : Option Nat
  optional4 : Option Nat
deriving DecidableEq

/-- One animation: fixed 36-byte record fields, frames, and the appendix
records (each a `<4I` tuple). -/
structure Animation where
  unknown1 : Nat
  bounding_box : Rect
  offset : Point
  unknown2 : Nat
  frames : List Frame
  unknown3 : Nat
  appendix : List (Nat × Nat × Nat × Nat)
deriving DecidableEq

/-- The in-memory container built by `PRTFile.Load`. -/
structure PRTFile where
  palettes : List Palette
  bitmaps : List Bitmap
  animations : List Animation
  num_optional_entries : Nat
  extra_data : Bytes
deriving DecidableEq

/-- One subframe record of `Load`: `<hBBhh` =
(bitmapId, unknown, subframeId, x, y).  The bitmap index is stored as read;
no validation is performed. -/
def loadSubframe (s : Bytes) : Except String (Subframe × Bytes) := do
  let (bitmapId, s) ← readI16 s
  let (unknown, s) ← readU8 s
  let (subframeId, s) ← readU8 s
  let (x, s) ← readI16 s
  let (y, s) ← readI16 s
  .ok ({ bitmap_id := bitmapId, unknown := unknown, subframe_id := subframeId,
         off_x := x, off_y := y }, s)

/-- The `for k in range(subframes)` loop of `Load`. -/
def loadSubframes : Nat → List Subframe → Bytes → Except String (List Subframe × Bytes)
  | 0, acc, s => .ok (acc, s)
  | n + 1, acc, s => do
    let (sf, s) ← loadSubframe s
    loadSubframes n (acc ++ [sf]) s

/-- The flag-bit gate applied to each of a frame's two leading bytes
(`Load` lines 149-154, identical for both bytes): if bit `0x80` of the byte
is set, clear it and read two more bytes as the optional pair; otherwise the
pair is absent.  Returns the (post-mask) byte value and the pair. -/
def readOptPair (flagByte : Nat) (s : Bytes) :
    Except String ((Nat × Option Nat × Option Nat) × Bytes) :=
  if flagByte &&& 0x80 ≠ 0 then do
    let ((o1, o2), s) ← readU8Pair s
    .ok ((flagByte &&& 0x7F, some o1, some o2), s)
  else .ok ((flagByte, none, none), s)

/-- One frame of `Load`: read the `<BB` leading pair; bit `0x80` of the
subframe-count byte gates two extra optional bytes (and is masked off), and
independently bit `0x80` of the unknown byte gates two more; then read the
(post-mask) number of subframe records. -/
def loadFrame (s : Bytes) : Except String (Frame × Bytes) := do
  let ((subframesByte, unknownByte), s) ← readU8Pair s
  let ((subframeCount, optional1, optional2), s) ← readOptPair subframesByte s
  let ((unknown, optional3, optional4), s) ← readOptPair unknownByte s
  let (subframes, s) ← loadSubframes subframeCount [] s
  .ok ({ subframes := subframes, unknown := unknown,
         optional1 := optional1, optional2 := optional2,
         optional3 := optional3, optional4 := optional4 }, s)

/-- The `for j in range(frames)` loop of `Load`. -/
def loadFrames : Nat → List Frame → Bytes → Except String (List Frame × Bytes)
  | 0, acc, s => .ok (acc, s)
  | n + 1, acc, s => do
    let (f, s) ← loadFrame s
    loadFrames n (acc ++ [f]) s

/-- The appendix loop of `Load`: `unknown3` records of `<4I` each. -/
def loadAppendix : Nat → List (Nat × Nat × Nat × Nat) → Bytes →
    Except String (List (Nat × Nat × Nat × Nat) × Bytes)
  | 0, acc, s => .ok (acc, s)
  | n + 1, acc, s => do
    let (a, s) ← readU32 s
    let (b, s) ← readU32 s
    let (c, s) ← readU32 s
    let (d, s) ← readU32 s
    loadAppendix n (acc ++ [(a, b, c, d)]) s

/-- One animation of `Load`: the `<IIIIIIIII` record, its frames, then the
32-bit appendix count (`unknown3`) and the appendix records. -/
def loadAnimation (s : Bytes) : Except String (Animation × Bytes) := do
  let (unknown1, s) ← readU32 s
  let (left, s) ← readU32 s
  let (top, s) ← readU32 s
  let (right, s) ← readU32 s
  let (bottom, s) ← readU32 s
  let (xOff, s) ← readU32 s
  let (yOff, s) ← readU32 s
  let (unknown2, s) ← readU32 s
  let (frameCount, s) ← readU32 s
  let (frames, s) ← loadFrames frameCount [] s
  let (unknown3, s) ← readU32 s
  let (appendix, s) ← loadAppendix unknown3 [] s
  .ok ({ unknown1 := unknown1,
         bounding_box := { left := left, top := top, right := right, bottom := bottom },
         offset := { x := xOff, y := yOff },
         unknown2 := unknown2, frames := frames,
         unknown3 := unknown3, appendix := appendix }, s)

/-- The `for i in range(num_anims)` loop of `Load`. -/
def loadAnimations : Nat → List Animation → Bytes → Except String (List Animation × Bytes)
  | 0, acc, s => .ok (acc, s)
  | n + 1, acc, s => do
    let (a, s) ← loadAnimation s
    loadAnimations n (acc ++ [a]) s

/-- Total frame count of a list of parsed animations (the final value of the
`num_loaded_frames` counter of `Load`). -/
def sumFrames (anims : List Animation) : Nat :=
  (anims.map (fun a => a.frames.length)).sum

/-- Total subframe count of a list of parsed animations (the final value of
the `num_loaded_subframes` counter of `Load`). -/
def sumSubframes (anims : List Animation) : Nat :=
  (anims.map (fun a => (a.frames.map (fun f => f.subframes.length)).sum)).sum

/-- The animation section of `Load`: parse `numAnims` animations, then
validate the declared header totals against the parsed totals
(`PRTLoadError` on mismatch). -/
def loadAnimsChecked (numAnims numFrames numSubframes : Nat) (s : Bytes) :
    Except String (List Animation × Bytes) := do
  let (anims, s) ← loadAnimations numAnims [] s
  if anims.length ≠ numAnims then .error "incorrect number of animations loaded"
  else if sumFrames anims ≠ numFrames then .error "incorrect number of frames loaded"
  else if sumSubframes anims ≠ numSubframes then .error "incorrect number of subframes loaded"
  else .ok (anims, s)

/-- `PRTFile.Load`: palettes, bitmaps, the four 32-bit animation header
counts, the checked animation section, then the unparsed remainder of the
stream as `extra_data`. -/
def Load (prt bmpFile : Bytes) : Except String PRTFile := do
  let (palettes, s) ← loadPalettes prt
  let (bitmaps, s) ← loadBitmaps palettes bmpFile s
  let (numAnims, s) ← readU32 s
  let (numFrames, s) ← readU32 s
  let (numSubframes, s) ← readU32 s
  let (numOptionalEntries, s) ← readU32 s
  let (animations, s) ← loadAnimsChecked numAnims numFrames numSubframes s
  .ok { palettes := palettes, bitmaps := bitmaps, animations := animations,
        num_optional_entries := numOptionalEntries, extra_data := s }

/-- Python `int(value)` on an optional byte: `int(None)` raises `TypeError`. -/
def intOpt : Option Nat → Except String Nat
  | some v => .ok v
  | none => .error "TypeError: int() argument is None"

/-- One subframe record of `Write`: `<hBBhh`. -/
def writeSubframe (sf : Subframe) : Except String Bytes := do
  let bid ← packI16 sf.bitmap_id
  let u ← packU8 sf.unknown
  let sid ← packU8 sf.subframe_id
  let x ← packI16 sf.off_x
  let y ← packI16 sf.off_y
  .ok (bid ++ u ++ sid ++ x ++ y)

/-- The subframe loop of `Write`. -/
def writeSubframes : List Subframe → Except String Bytes
  | [] => .ok []
  | sf :: rest => do
    let b ← writeSubframe sf
    let bs ← writeSubframes rest
    .ok (b ++ bs)

/-- One frame of `Write`: the presence of either member of an optional pair
sets bit `0x80` on the corresponding leading byte, and the pair's bytes are
then emitted via `int(...)` (which fails on an absent member). -/
def writeFrame (f : Frame) : Except String Bytes := do
  let subframesByte :=
    if f.optional1.isSome || f.optional2.isSome then f.subframes.length ||| 0x80
    else f.subframes.length
  let unknownByte :=
    if f.optional3.isSome || f.optional4.isSome then f.unknown ||| 0x80
    else f.unknown
  let b1 ← packU8 subframesByte
  let b2 ← packU8 unknownByte
  let opt12 ←
    if f.optional1.isSome || f.optional2.isSome then do
      let a ← intOpt f.optional1
      let b ← intOpt f.optional2
      let pa ← packU8 a
      let pb ← packU8 b
      pure (pa ++ pb)
    else pure []
  let opt34 ←
    if f.optional3.isSome || f.optional4.isSome then do
      let a ← intOpt f.optional3
      let b ← intOpt f.optional4
      let pa ← packU8 a
      let pb ← packU8 b
      pure (pa ++ pb)
    else pure []
  let sfs ← writeSubframes f.subframes
  .ok (b1 ++ b2 ++ opt12 ++ opt34 ++ sfs)

/-- The frame loop of `Write`. -/
def writeFrames : List Frame → Except String Bytes
  | [] => .ok []
  | f :: rest => do
    let b ← writeFrame f
    let bs ← writeFrames rest
    .ok (b ++ bs)

/-- The appendix loop of `Write`: each record as `<4I`. -/
def writeAppendix : List (Nat × Nat × Nat × Nat) → Except String Bytes
  | [] => .ok []
  | (a, b, c, d) :: rest => do
    let pa ← packU32 a
    let pb ← packU32 b
    let pc ← packU32 c
    let pd ← packU32 d
    let bs ← writeAppendix rest
    .ok (pa ++ pb ++ pc ++ pd ++ bs)

/-- One animation of `Write`: the `<IIIIIIIII` record (frame count taken
from the live frame list), the frames, `unknown3`, then the appendix. -/
def writeAnimation (a : Animation) : Except String Bytes := do
  let u1 ← packU32 a.unknown1
  let l ← packU32 a.bounding_box.left
  let t ← packU32 a.bounding_box.top
  let r ← packU32 a.bounding_box.right
  let bt ← packU32 a.bounding_box.bottom
  let ox ← packU32 a.offset.x
  let oy ← packU32 a.offset.y
  let u2 ← packU32 a.unknown2
  let fc ← packU32 a.frames.length
  let fs ← writeFrames a.frames
  let u3 ← packU32 a.unknown3
  let ap ← writeAppendix a.appendix
  .ok (u1 ++ l ++ t ++ r ++ bt ++ ox ++ oy ++ u2 ++ fc ++ fs ++ u3 ++ ap)

/-- The animation loop of `Write`. -/
def writeAnimations : List Animation → Except String Bytes
  | [] => .ok []
  | a :: rest => do
    let b ← writeAnimation a
    let bs ← writeAnimations rest
    .ok (b ++ bs)

/-- `PRTFile.Write`: palettes, bitmap metadata (and the companion blob), the
four header counts recomputed from the live structures, the animations, and
the trailing extra data.  Returns (main stream bytes, companion blob
bytes). -/
def Write (c : PRTFile) : Except String (Bytes × Bytes) := do
  let pal ← writePalettes c.palettes
  let (bmMeta, bmpFile) ← writeBitmaps c.bitmaps
  let na ← packU32 c.animations.length
  let nf ← packU32 (sumFrames c.animations)
  let ns ← packU32 (sumSubframes c.animations)
  let no ← packU32 c.num_optional_entries
  let anims ← writeAnimations c.animations
  .ok (pal ++ bmMeta ++ na ++ nf ++ ns ++ no ++ anims ++ c.extra_data, bmpFile)

/-! ## Byte-level lemmas -/

theorem ok_bind {α β : Type} (a : α) (f : α → Except String β) :
    (Except.ok a : Except String α) >>= f = f a := rfl

theorem error_bind {α β : Type} (e : String) (f : α → Except String β) :
    (Except.error e : Except String α) >>= f = .error e := rfl

theorem readBytes_append (xs ys : Bytes) : readBytes xs.length (xs ++ ys) = .ok (xs, ys) := by
  unfold readBytes
  rw [if_pos (by simp)]
  simp

theorem u32le_length (n : Nat) : (u32le n).length = 4 := rfl

theorem leNat_u32le (n : Nat) (h : n < 4294967296) : leNat (u32le n) = n := by
  simp only [u32le, leNat]
  omega

theorem readU32_u32le (n : Nat) (rest : Bytes) (h : n < 4294967296) :
    readU32 (u32le n ++ rest) = .ok (n, rest) := by
  unfold readU32
  rw [show (4 : Nat) = (u32le n).length from rfl, readBytes_append, ok_bind]
  show Except.ok (leNat (u32le n), rest) = _
  rw [leNat_u32le n h]

theorem packU32_ok (n : Nat) (h : n < 4294967296) : packU32 n = .ok (u32le n) := by
  unfold packU32
  rw [if_pos h]

theorem packU8_ok (n : Nat) (h : n < 256) : packU8 n = .ok [n] := by
  unfold packU8
  rw [if_pos h]

theorem leNat_u16le (n : Nat) (h : n < 65536) : leNat (u16le n) = n := by
  simp only [u16le, leNat]
  omega

theorem emod65536_toNat_lt (v : Int) : (v.emod 65536).toNat < 65536 := by
  have h1 : 0 ≤ v.emod 65536 := Int.emod_nonneg v (by norm_num)
  have h2 : v.emod 65536 < 65536 := Int.emod_lt_of_pos v (by norm_num)
  omega

theorem toI16_emod (v : Int) (hlo : -32768 ≤ v) (hhi : v ≤ 32767) :
    toI16 (v.emod 65536).toNat = v := by
  unfold toI16
  have h1 : 0 ≤ v.emod 65536 := Int.emod_nonneg v (by norm_num)
  have h2 : v.emod 65536 < 65536 := Int.emod_lt_of_pos v (by norm_num)
  have h3 : 65536 * (v / 65536) + v % 65536 = v := Int.ediv_add_emod v 65536
  have h4 : v % 65536 = v.emod 65536 := rfl
  split <;> omega

theorem readI16_i16le (v : Int) (rest : Bytes) (hlo : -32768 ≤ v) (hhi : v ≤ 32767) :
    readI16 (i16le v ++ rest) = .ok (v, rest) := by
  unfold readI16 i16le
  rw [show (2 : Nat) = (u16le (v.emod 65536).toNat).length from rfl, readBytes_append,
    ok_bind]
  show Except.ok (toI16 (leNat (u16le (v.emod 65536).toNat)), rest) = _
  rw [leNat_u16le _ (emod65536_toNat_lt v), toI16_emod v hlo hhi]

theorem packI16_ok (v : Int) (hlo : -32768 ≤ v) (hhi : v ≤ 32767) :
    packI16 v = .ok (i16le v) := by
  unfold packI16
  rw [if_pos ⟨hlo, hhi⟩]

theorem readU8_cons (b : Nat) (s : Bytes) : readU8 (b :: s) = .ok (b, s) := rfl

theorem readU8Pair_cons (a b : Nat) (s : Bytes) :
    readU8Pair (a :: b :: s) = .ok ((a, b), s) := rfl

theorem toI16_range (n : Nat) (h : n < 65536) : -32768 ≤ toI16 n ∧ toI16 n ≤ 32767 := by
  unfold toI16
  split <;> omega

theorem leNat_lt_of_bytes (bs : Bytes) (h : ∀ x ∈ bs, x < 256) :
    leNat bs < 256 ^ bs.length := by
  induction bs with
  | nil => simp [leNat]
  | cons b rest ih =>
    have hb : b < 256 := h b (by simp)
    have hr := ih (fun x hx => h x (by simp [hx]))
    simp only [leNat, List.length_cons, pow_succ]
    calc b + 256 * leNat rest < 256 + 256 * leNat rest := by omega
    _ ≤ 256 * (leNat rest + 1) := by ring_nf; omega
    _ ≤ 256 * 256 ^ rest.length := by
        have : leNat rest + 1 ≤ 256 ^ rest.length := hr
        exact Nat.mul_le_mul_left 256 this
    _ = 256 ^ rest.length * 256 := by ring

/-! ## Bit-twiddling facts about the 0x80 flag bit, over byte values -/

set_option maxRecDepth 4096 in
theorem flag_clear_of_lt128 : ∀ b, b < 128 → b &&& 128 = 0 := by decide

set_option maxRecDepth 4096 in
theorem lt128_of_flag_clear : ∀ b, b < 256 → b &&& 128 = 0 → b < 128 := by decide

set_option maxRecDepth 4096 in
theorem mask_of_byte : ∀ b, b < 256 → 128 ≤ b → b &&& 128 ≠ 0 ∧ b &&& 127 = b - 128 := by
  decide

set_option maxRecDepth 4096 in
theorem lor128_facts : ∀ b, b < 128 →
    b ||| 128 < 256 ∧ (b ||| 128) &&& 128 ≠ 0 ∧ (b ||| 128) &&& 127 = b := by decide

theorem land127_lt (b : Nat) : b &&& 127 < 128 :=
  Nat.lt_succ_of_le (Nat.and_le_right)

/-! ## Well-formedness invariants of loaded containers -/

/-- Every element of the stream is a byte value (true of any real file). -/
def AllBytes (s : Bytes) : Prop := ∀ x ∈ s, x < 256

/-- All four channels of a color are byte values. -/
def ColorWF (c : Color) : Prop := c.r < 256 ∧ c.g < 256 ∧ c.b < 256 ∧ c.flags < 256

/-- A bitmap's index fields are in range and its palette reference matches
the palette table. -/
def BitmapWF (palettes : List Palette) (b : Bitmap) : Prop :=
  0 ≤ b.palette_id ∧ b.palette_id < (palettes.length : Int) ∧ b.palette_id ≤ 32767 ∧
  b.palette = palettes.getD b.palette_id.toNat { colors := [] } ∧
  -32768 ≤ b.image_type ∧ b.image_type ≤ 32767 ∧
  b.width < 4294967296 ∧ b.height < 4294967296

/-- A subframe's fields fit their wire formats. -/
def SubframeWF (sf : Subframe) : Prop :=
  -32768 ≤ sf.bitmap_id ∧ sf.bitmap_id ≤ 32767 ∧
  sf.unknown < 256 ∧ sf.subframe_id < 256 ∧
  -32768 ≤ sf.off_x ∧ sf.off_x ≤ 32767 ∧ -32768 ≤ sf.off_y ∧ sf.off_y ≤ 32767

instance (sf : Subframe) : Decidable (SubframeWF sf) := by
  unfold SubframeWF
  infer_instance

/-- An optional byte pair is either entirely absent or entirely present with
byte values (the only shapes `Load` ever produces). -/
def optPairWF : Option Nat → Option Nat → Prop
  | none, none => True
  | some x, some y => x < 256 ∧ y < 256
  | _, _ => False

instance : (a b : Option Nat) → Decidable (optPairWF a b)
  | none, none => isTrue trivial
  | some x, some y => inferInstanceAs (Decidable (x < 256 ∧ y < 256))
  | none, some _ => isFalse fun h => h
  | some _, none => isFalse fun h => h

/-- A frame's fields fit their wire formats: at most 127 subframes, a 7-bit
unknown value, coherent optional pairs, well-formed subframes. -/
def FrameWF (f : Frame) : Prop :=
  f.subframes.length < 128 ∧ f.unknown < 128 ∧
  optPairWF f.optional1 f.optional2 ∧ optPairWF f.optional3 f.optional4 ∧
  ∀ sf ∈ f.subframes, SubframeWF sf

/-- An animation's fields fit their wire formats; `unknown3` is the appendix
record count. -/
def AnimationWF (a : Animation) : Prop :=
  a.unknown1 < 4294967296 ∧
  a.bounding_box.left < 4294967296 ∧ a.bounding_box.top < 4294967296 ∧
  a.bounding_box.right < 4294967296 ∧ a.bounding_box.bottom < 4294967296 ∧
  a.offset.x < 4294967296 ∧ a.offset.y < 4294967296 ∧
  a.unknown2 < 4294967296 ∧
  a.frames.length < 4294967296 ∧
  a.unknown3 = a.appendix.length ∧ a.appendix.length < 4294967296 ∧
  (∀ f ∈ a.frames, FrameWF f) ∧
  ∀ r ∈ a.appendix,
    r.1 < 4294967296 ∧ r.2.1 < 4294967296 ∧ r.2.2.1 < 4294967296 ∧ r.2.2.2 < 4294967296

/-- The structural invariants every successfully loaded container satisfies
(when the input streams contain byte values). -/
def ContainerWF (c : PRTFile) : Prop :=
  c.palettes.length < 4294967296 ∧
  (∀ p ∈ c.palettes, ∀ col ∈ p.colors, ColorWF col) ∧
  c.bitmaps.length < 4294967296 ∧
  (∀ b ∈ c.bitmaps, BitmapWF c.palettes b) ∧
  c.animations.length < 4294967296 ∧
  (∀ a ∈ c.animations, AnimationWF a) ∧
  sumFrames c.animations < 4294967296 ∧
  sumSubframes c.animations < 4294967296 ∧
  c.num_optional_entries < 4294967296

/-! ## Inversion helpers for the Except monad -/

theorem bind_ok_iff {α β : Type} (m : Except String α) (f : α → Except String β) (b : β) :
    (m >>= f) = .ok b ↔ ∃ a, m = .ok a ∧ f a = .ok b := by
  cases m with
  | error e => simp [error_bind]
  | ok a => simp [ok_bind]

theorem AllBytes_take (s : Bytes) (n : Nat) (h : AllBytes s) : AllBytes (s.take n) :=
  fun x hx => h x (List.mem_of_mem_take hx)

theorem AllBytes_drop (s : Bytes) (n : Nat) (h : AllBytes s) : AllBytes (s.drop n) :=
  fun x hx => h x (List.mem_of_mem_drop hx)

theorem AllBytes_cons (b : Nat) (s : Bytes) (h : AllBytes (b :: s)) :
    b < 256 ∧ AllBytes s :=
  ⟨h b (by simp), fun x hx => h x (by simp [hx])⟩

theorem readBytes_wf (n : Nat) (s bs r : Bytes) (h : AllBytes s)
    (hr : readBytes n s = .ok (bs, r)) :
    AllBytes bs ∧ AllBytes r ∧ bs.length = n := by
  unfold readBytes at hr
  split at hr
  · injection hr with h1
    injection h1 with h2 h3
    subst h2
    subst h3
    refine ⟨AllBytes_take s n h, AllBytes_drop s n h, ?_⟩
    simpa [List.length_take] using (by omega : min n s.length = n)
  · exact absurd hr (by simp)

theorem readU32_wf (s : Bytes) (n : Nat) (r : Bytes) (h : AllBytes s)
    (hr : readU32 s = .ok (n, r)) : n < 4294967296 ∧ AllBytes r := by
  unfold readU32 at hr
  rw [bind_ok_iff] at hr
  obtain ⟨⟨bs, r1⟩, h1, h2⟩ := hr
  obtain ⟨hbs, hr1, hlen⟩ := readBytes_wf 4 s bs r1 h h1
  injection h2 with h3
  injection h3 with h4 h5
  subst h4
  subst h5
  have := leNat_lt_of_bytes bs hbs
  rw [hlen] at this
  exact ⟨by norm_num at this; omega, hr1⟩

theorem readI16_wf (s : Bytes) (v : Int) (r : Bytes) (h : AllBytes s)
    (hr : readI16 s = .ok (v, r)) :
    -32768 ≤ v ∧ v ≤ 32767 ∧ AllBytes r := by
  unfold readI16 at hr
  rw [bind_ok_iff] at hr
  obtain ⟨⟨bs, r1⟩, h1, h2⟩ := hr
  obtain ⟨hbs, hr1, hlen⟩ := readBytes_wf 2 s bs r1 h h1
  injection h2 with h3
  injection h3 with h4 h5
  subst h4
  subst h5
  have hlt := leNat_lt_of_bytes bs hbs
  rw [hlen] at hlt
  norm_num at hlt
  obtain ⟨hl, hh⟩ := toI16_range (leNat bs) hlt
  exact ⟨hl, hh, hr1⟩

theorem readU8_wf (s : Bytes) (b : Nat) (r : Bytes) (h : AllBytes s)
    (hr : readU8 s = .ok (b, r)) : b < 256 ∧ AllBytes r := by
  cases s with
  | nil => exact absurd hr (by simp [readU8])
  | cons x rest =>
    simp only [readU8, Except.ok.injEq, Prod.mk.injEq] at hr
    obtain ⟨hx, hrest⟩ := hr
    subst hx
    subst hrest
    exact AllBytes_cons _ _ h

theorem readU8Pair_wf (s : Bytes) (a b : Nat) (r : Bytes) (h : AllBytes s)
    (hr : readU8Pair s = .ok ((a, b), r)) : a < 256 ∧ b < 256 ∧ AllBytes r := by
  match s with
  | [] => exact absurd hr (by simp [readU8Pair])
  | [x] => exact absurd hr (by simp [readU8Pair])
  | x :: y :: rest =>
    simp only [readU8Pair, Except.ok.injEq, Prod.mk.injEq] at hr
    obtain ⟨⟨hx, hy⟩, hrest⟩ := hr
    subst hx
    subst hy
    subst hrest
    obtain ⟨ha, h2⟩ := AllBytes_cons _ _ h
    obtain ⟨hb, h3⟩ := AllBytes_cons _ _ h2
    exact ⟨ha, hb, h3⟩

theorem readTag_wf (s : Bytes) (tag : Bytes) (n : Nat) (r : Bytes) (h : AllBytes s)
    (hr : readTag s = .ok ((tag, n), r)) : n < 4294967296 ∧ AllBytes r := by
  unfold readTag at hr
  rw [bind_ok_iff] at hr
  obtain ⟨⟨bs, s1⟩, h1, hr⟩ := hr
  rw [bind_ok_iff] at hr
  obtain ⟨⟨m, s2⟩, h2, hr⟩ := hr
  obtain ⟨-, hs1, -⟩ := readBytes_wf 4 s bs s1 h h1
  obtain ⟨hm, hs2⟩ := readU32_wf s1 m s2 hs1 h2
  injection hr with h3
  injection h3 with h4 h5
  injection h4 with h6 h7
  subst h5
  subst h7
  exact ⟨hm, hs2⟩

theorem readColors_wf (n : Nat) (acc : List Color) (s : Bytes) (out : List Color) (r : Bytes)
    (hs : AllBytes s) (hacc : ∀ c ∈ acc, ColorWF c)
    (hr : readColors n acc s = .ok (out, r)) :
    (∀ c ∈ out, ColorWF c) ∧ AllBytes r ∧ out.length = acc.length + n := by
  induction n generalizing acc s with
  | zero =>
    simp only [readColors, Except.ok.injEq, Prod.mk.injEq] at hr
    obtain ⟨h1, h2⟩ := hr
    subst h1
    subst h2
    exact ⟨hacc, hs, by omega⟩
  | succ n ih =>
    match s, hs, hr with
    | [], hs, hr => exact absurd hr (by simp [readColors])
    | [_], hs, hr => exact absurd hr (by simp [readColors])
    | [_, _], hs, hr => exact absurd hr (by simp [readColors])
    | [_, _, _], hs, hr => exact absurd hr (by simp [readColors])
    | b0 :: b1 :: b2 :: b3 :: rest, hs, hr =>
      simp only [readColors] at hr
      obtain ⟨h0, hs⟩ := AllBytes_cons _ _ hs
      obtain ⟨h1, hs⟩ := AllBytes_cons _ _ hs
      obtain ⟨h2, hs⟩ := AllBytes_cons _ _ hs
      obtain ⟨h3, hs⟩ := AllBytes_cons _ _ hs
      have hacc2 : ∀ c ∈ acc ++ [{ r := b2, g := b1, b := b0, flags := b3 : Color }], ColorWF c := by
        intro c hc
        rcases List.mem_append.mp hc with hc | hc
        · exact hacc c hc
        · simp only [List.mem_singleton] at hc
          subst hc
          exact ⟨h2, h1, h0, h3⟩
      obtain ⟨ho, hro, hlen⟩ := ih _ rest hs hacc2 hr
      refine ⟨ho, hro, ?_⟩
      simp only [List.length_append, List.length_cons, List.length_nil] at hlen
      omega

theorem loadPalTags_wf (fuel : Nat) :
    ∀ n colors s out r, AllBytes s → (∀ c ∈ colors, ColorWF c) →
    loadPalTags fuel n colors s = .ok (out, r) →
    (∀ c ∈ out, ColorWF c) ∧ AllBytes r := by
  induction fuel with
  | zero =>
    intro n colors s out r hs hc hr
    match n, hr with
    | 0, hr =>
      simp only [loadPalTags, Except.ok.injEq, Prod.mk.injEq] at hr
      obtain ⟨h1, h2⟩ := hr
      subst h1
      subst h2
      exact ⟨hc, hs⟩
    | m + 1, hr => exact absurd hr (by simp [loadPalTags])
  | succ fuel ih =>
    intro n colors s out r hs hc hr
    match n, hr with
    | 0, hr =>
      simp only [loadPalTags, Except.ok.injEq, Prod.mk.injEq] at hr
      obtain ⟨h1, h2⟩ := hr
      subst h1
      subst h2
      exact ⟨hc, hs⟩
    | m + 1, hr =>
      simp only [loadPalTags] at hr
      rw [bind_ok_iff] at hr
      obtain ⟨⟨⟨tag, size⟩, s1⟩, h1, hr⟩ := hr
      obtain ⟨-, hs1⟩ := readTag_wf s tag size s1 hs h1
      split at hr
      · split at hr
        · exact absurd hr (by simp)
        · exact ih m colors s1 out r hs1 hc hr
      · split at hr
        · exact absurd hr (by simp)
        · split at hr
          · split at hr
            · exact absurd hr (by simp)
            · rw [bind_ok_iff] at hr
              obtain ⟨⟨cnt, s2⟩, h2, hr⟩ := hr
              obtain ⟨-, hs2⟩ := readU32_wf s1 cnt s2 hs1 h2
              exact ih cnt colors s2 out r hs2 hc hr
          · split at hr
            · split at hr
              · exact absurd hr (by simp)
              · rw [bind_ok_iff] at hr
                obtain ⟨⟨colors2, s2⟩, h2, hr⟩ := hr
                obtain ⟨hc2, hs2, -⟩ := readColors_wf 256 colors s1 colors2 s2 hs1 hc h2
                exact ih m colors2 s2 out r hs2 hc2 hr
            · exact absurd hr (by simp)

theorem loadPaletteEntries_wf (n : Nat) :
    ∀ acc s out r, AllBytes s → (∀ p ∈ acc, ∀ c ∈ p.colors, ColorWF c) →
    loadPaletteEntries n acc s = .ok (out, r) →
    (∀ p ∈ out, ∀ c ∈ p.colors, ColorWF c) ∧ AllBytes r ∧ out.length = acc.length + n := by
  induction n with
  | zero =>
    intro acc s out r hs hacc hr
    simp only [loadPaletteEntries, Except.ok.injEq, Prod.mk.injEq] at hr
    obtain ⟨h1, h2⟩ := hr
    subst h1
    subst h2
    exact ⟨hacc, hs, by omega⟩
  | succ n ih =>
    intro acc s out r hs hacc hr
    simp only [loadPaletteEntries] at hr
    rw [bind_ok_iff] at hr
    obtain ⟨⟨colors, s1⟩, h1, hr⟩ := hr
    obtain ⟨hcol, hs1⟩ := loadPalTags_wf (s.length + 1) 2 [] s colors s1 hs (by simp) h1
    have hacc2 : ∀ p ∈ acc ++ [{ colors := colors : Palette }], ∀ c ∈ p.colors, ColorWF c := by
      intro p hp
      rcases List.mem_append.mp hp with hp | hp
      · exact hacc p hp
      · simp only [List.mem_singleton] at hp
        subst hp
        exact hcol
    obtain ⟨ho, hro, hlen⟩ := ih _ s1 out r hs1 hacc2 hr
    refine ⟨ho, hro, ?_⟩
    simp only [List.length_append, List.length_cons, List.length_nil] at hlen
    omega

theorem loadPalettes_wf (s : Bytes) (out : List Palette) (r : Bytes) (hs : AllBytes s)
    (hr : loadPalettes s = .ok (out, r)) :
    (∀ p ∈ out, ∀ c ∈ p.colors, ColorWF c) ∧ AllBytes r ∧ out.length < 4294967296 := by
  unfold loadPalettes at hr
  rw [bind_ok_iff] at hr
  obtain ⟨⟨⟨tag, numPalettes⟩, s1⟩, h1, hr⟩ := hr
  obtain ⟨hn, hs1⟩ := readTag_wf s tag numPalettes s1 hs h1
  dsimp only at hr
  split at hr
  · exact absurd hr (by simp)
  · obtain ⟨ho, hro, hlen⟩ := loadPaletteEntries_wf numPalettes [] s1 out r hs1 (by simp) hr
    exact ⟨ho, hro, by simp at hlen; omega⟩

theorem loadOneBitmap_wf (palettes : List Palette) (ds : Nat) (bmpFile : Bytes)
    (s : Bytes) (bmp : Bitmap) (r : Bytes) (hs : AllBytes s)
    (hr : loadOneBitmap palettes ds bmpFile s = .ok (bmp, r)) :
    BitmapWF palettes bmp ∧ AllBytes r := by
  unfold loadOneBitmap at hr
  rw [bind_ok_iff] at hr
  obtain ⟨⟨pw, s1⟩, h1, hr⟩ := hr
  dsimp only at hr
  rw [bind_ok_iff] at hr
  obtain ⟨⟨off, s2⟩, h2, hr⟩ := hr
  dsimp only at hr
  rw [bind_ok_iff] at hr
  obtain ⟨⟨h, s3⟩, h3, hr⟩ := hr
  dsimp only at hr
  rw [bind_ok_iff] at hr
  obtain ⟨⟨w, s4⟩, h4, hr⟩ := hr
  dsimp only at hr
  rw [bind_ok_iff] at hr
  obtain ⟨⟨it, s5⟩, h5, hr⟩ := hr
  dsimp only at hr
  rw [bind_ok_iff] at hr
  obtain ⟨⟨pid, s6⟩, h6, hr⟩ := hr
  dsimp only at hr
  obtain ⟨hpw, hs1⟩ := readU32_wf s pw s1 hs h1
  obtain ⟨hoff, hs2⟩ := readU32_wf s1 off s2 hs1 h2
  obtain ⟨hh, hs3⟩ := readU32_wf s2 h s3 hs2 h3
  obtain ⟨hw, hs4⟩ := readU32_wf s3 w s4 hs3 h4
  obtain ⟨hit1, hit2, hs5⟩ := readI16_wf s4 it s5 hs4 h5
  obtain ⟨hpid1, hpid2, hs6⟩ := readI16_wf s5 pid s6 hs5 h6
  split at hr
  · exact absurd hr (by simp)
  · next hcond =>
    push_neg at hcond
    obtain ⟨hc1, hc2⟩ := hcond
    injection hr with ha
    injection ha with hb hc
    subst hb
    subst hc
    refine ⟨⟨hc1, by show pid < (palettes.length : Int); omega, hpid2, rfl, hit1, hit2, hw, hh⟩,
      hs6⟩

theorem loadBitmapEntries_wf (palettes : List Palette) (ds : Nat) (bmpFile : Bytes)
    (n : Nat) :
    ∀ acc s out r, AllBytes s → (∀ b ∈ acc, BitmapWF palettes b) →
    loadBitmapEntries palettes ds bmpFile n acc s = .ok (out, r) →
    (∀ b ∈ out, BitmapWF palettes b) ∧ AllBytes r ∧ out.length = acc.length + n := by
  induction n with
  | zero =>
    intro acc s out r hs hacc hr
    simp only [loadBitmapEntries, Except.ok.injEq, Prod.mk.injEq] at hr
    obtain ⟨h1, h2⟩ := hr
    subst h1
    subst h2
    exact ⟨hacc, hs, by omega⟩
  | succ n ih =>
    intro acc s out r hs hacc hr
    simp only [loadBitmapEntries] at hr
    rw [bind_ok_iff] at hr
    obtain ⟨⟨bmp, s1⟩, h1, hr⟩ := hr
    obtain ⟨hbmp, hs1⟩ := loadOneBitmap_wf palettes ds bmpFile s bmp s1 hs h1
    have hacc2 : ∀ b ∈ acc ++ [bmp], BitmapWF palettes b := by
      intro b hb
      rcases List.mem_append.mp hb with hb | hb
      · exact hacc b hb
      · simp only [List.mem_singleton] at hb
        subst hb
        exact hbmp
    obtain ⟨ho, hro, hlen⟩ := ih _ s1 out r hs1 hacc2 hr
    refine ⟨ho, hro, ?_⟩
    simp only [List.length_append, List.length_cons, List.length_nil] at hlen
    omega

theorem loadBitmaps_wf (palettes : List Palette) (bmpFile : Bytes) (s : Bytes)
    (out : List Bitmap) (r : Bytes) (hs : AllBytes s)
    (hr : loadBitmaps palettes bmpFile s = .ok (out, r)) :
    (∀ b ∈ out, BitmapWF palettes b) ∧ AllBytes r ∧ out.length < 4294967296 := by
  unfold loadBitmaps at hr
  split at hr
  · exact absurd hr (by simp)
  · split at hr
    · exact absurd hr (by simp)
    · rw [bind_ok_iff] at hr
      obtain ⟨⟨numBitmaps, s1⟩, h1, hr⟩ := hr
      obtain ⟨hn, hs1⟩ := readU32_wf s numBitmaps s1 hs h1
      obtain ⟨ho, hro, hlen⟩ := loadBitmapEntries_wf palettes _ bmpFile numBitmaps [] s1
        out r hs1 (by simp) hr
      exact ⟨ho, hro, by simp at hlen; omega⟩

theorem pure_eq_ok {α : Type} (a : α) : (pure a : Except String α) = .ok a := rfl

theorem loadSubframe_wf (s : Bytes) (sf : Subframe) (r : Bytes) (hs : AllBytes s)
    (hr : loadSubframe s = .ok (sf, r)) : SubframeWF sf ∧ AllBytes r := by
  unfold loadSubframe at hr
  rw [bind_ok_iff] at hr
  obtain ⟨⟨bid, s1⟩, h1, hr⟩ := hr
  dsimp only at hr
  rw [bind_ok_iff] at hr
  obtain ⟨⟨u, s2⟩, h2, hr⟩ := hr
  dsimp only at hr
  rw [bind_ok_iff] at hr
  obtain ⟨⟨sid, s3⟩, h3, hr⟩ := hr
  dsimp only at hr
  rw [bind_ok_iff] at hr
  obtain ⟨⟨x, s4⟩, h4, hr⟩ := hr
  dsimp only at hr
  rw [bind_ok_iff] at hr
  obtain ⟨⟨y, s5⟩, h5, hr⟩ := hr
  dsimp only at hr
  obtain ⟨hb1, hb2, hs1⟩ := readI16_wf s bid s1 hs h1
  obtain ⟨hu, hs2⟩ := readU8_wf s1 u s2 hs1 h2
  obtain ⟨hsid, hs3⟩ := readU8_wf s2 sid s3 hs2 h3
  obtain ⟨hx1, hx2, hs4⟩ := readI16_wf s3 x s4 hs3 h4
  obtain ⟨hy1, hy2, hs5⟩ := readI16_wf s4 y s5 hs4 h5
  injection hr with ha
  injection ha with hb hc
  subst hb
  subst hc
  exact ⟨⟨hb1, hb2, hu, hsid, hx1, hx2, hy1, hy2⟩, hs5⟩

theorem loadSubframes_wf (n : Nat) :
    ∀ acc s out r, AllBytes s → (∀ sf ∈ acc, SubframeWF sf) →
    loadSubframes n acc s = .ok (out, r) →
    (∀ sf ∈ out, SubframeWF sf) ∧ AllBytes r ∧ out.length = acc.length + n := by
  induction n with
  | zero =>
    intro acc s out r hs hacc hr
    simp only [loadSubframes, Except.ok.injEq, Prod.mk.injEq] at hr
    obtain ⟨h1, h2⟩ := hr
    subst h1
    subst h2
    exact ⟨hacc, hs, by omega⟩
  | succ n ih =>
    intro acc s out r hs hacc hr
    simp only [loadSubframes] at hr
    rw [bind_ok_iff] at hr
    obtain ⟨⟨sf, s1⟩, h1, hr⟩ := hr
    obtain ⟨hsf, hs1⟩ := loadSubframe_wf s sf s1 hs h1
    have hacc2 : ∀ x ∈ acc ++ [sf], SubframeWF x := by
      intro x hx
      rcases List.mem_append.mp hx with hx | hx
      · exact hacc x hx
      · simp only [List.mem_singleton] at hx
        subst hx
        exact hsf
    obtain ⟨ho, hro, hlen⟩ := ih _ s1 out r hs1 hacc2 hr
    refine ⟨ho, hro, ?_⟩
    simp only [List.length_append, List.length_cons, List.length_nil] at hlen
    omega

theorem readOptPair_wf (flagByte : Nat) (s : Bytes) (v : Nat) (o1 o2 : Option Nat)
    (r : Bytes) (hb : flagByte < 256) (hs : AllBytes s)
    (hr : readOptPair flagByte s = .ok ((v, o1, o2), r)) :
    v < 128 ∧ optPairWF o1 o2 ∧ AllBytes r := by
  unfold readOptPair at hr
  split at hr
  · rw [bind_ok_iff] at hr
    obtain ⟨⟨⟨a, b⟩, s1⟩, h1, hr⟩ := hr
    dsimp only at hr
    obtain ⟨ha, hb2, hs1⟩ := readU8Pair_wf s a b s1 hs h1
    simp only [Except.ok.injEq, Prod.mk.injEq] at hr
    obtain ⟨⟨hc1, hc2, hc3⟩, hc4⟩ := hr
    subst hc1
    subst hc2
    subst hc3
    subst hc4
    exact ⟨land127_lt flagByte, ⟨ha, hb2⟩, hs1⟩
  · next hflag =>
    push_neg at hflag
    simp only [Except.ok.injEq, Prod.mk.injEq] at hr
    obtain ⟨⟨hc1, hc2, hc3⟩, hc4⟩ := hr
    subst hc1
    subst hc2
    subst hc3
    subst hc4
    exact ⟨lt128_of_flag_clear flagByte hb hflag, trivial, hs⟩

theorem loadFrame_wf (s : Bytes) (f : Frame) (r : Bytes) (hs : AllBytes s)
    (hr : loadFrame s = .ok (f, r)) : FrameWF f ∧ AllBytes r := by
  unfold loadFrame at hr
  rw [bind_ok_iff] at hr
  obtain ⟨⟨⟨sfByte, unkByte⟩, s1⟩, h1, hr⟩ := hr
  dsimp only at hr
  obtain ⟨hsfb, hunkb, hs1⟩ := readU8Pair_wf s sfByte unkByte s1 hs h1
  rw [bind_ok_iff] at hr
  obtain ⟨⟨⟨cnt, o1, o2⟩, s2⟩, h2, hr⟩ := hr
  dsimp only at hr
  obtain ⟨hcnt, hpair12, hs2⟩ := readOptPair_wf sfByte s1 cnt o1 o2 s2 hsfb hs1 h2
  rw [bind_ok_iff] at hr
  obtain ⟨⟨⟨unk, o3, o4⟩, s3⟩, h3, hr⟩ := hr
  dsimp only at hr
  obtain ⟨hunk, hpair34, hs3⟩ := readOptPair_wf unkByte s2 unk o3 o4 s3 hunkb hs2 h3
  rw [bind_ok_iff] at hr
  obtain ⟨⟨sfs, s4⟩, h4, hr⟩ := hr
  dsimp only at hr
  obtain ⟨hsfs, hs4, hlen⟩ := loadSubframes_wf cnt [] s3 sfs s4 hs3 (by simp) h4
  injection hr with ha
  injection ha with hb hc
  subst hb
  subst hc
  refine ⟨⟨?_, hunk, hpair12, hpair34, hsfs⟩, hs4⟩
  show sfs.length < 128
  simp only [List.length_nil] at hlen
  omega

theorem loadFrames_wf (n : Nat) :
    ∀ acc s out r, AllBytes s → (∀ f ∈ acc, FrameWF f) →
    loadFrames n acc s = .ok (out, r) →
    (∀ f ∈ out, FrameWF f) ∧ AllBytes r ∧ out.length = acc.length + n := by
  induction n with
  | zero =>
    intro acc s out r hs hacc hr
    simp only [loadFrames, Except.ok.injEq, Prod.mk.injEq] at hr
    obtain ⟨h1, h2⟩ := hr
    subst h1
    subst h2
    exact ⟨hacc, hs, by omega⟩
  | succ n ih =>
    intro acc s out r hs hacc hr
    simp only [loadFrames] at hr
    rw [bind_ok_iff] at hr
    obtain ⟨⟨f, s1⟩, h1, hr⟩ := hr
    obtain ⟨hf, hs1⟩ := loadFrame_wf s f s1 hs h1
    have hacc2 : ∀ x ∈ acc ++ [f], FrameWF x := by
      intro x hx
      rcases List.mem_append.mp hx with hx | hx
      · exact hacc x hx
      · simp only [List.mem_singleton] at hx
        subst hx
        exact hf
    obtain ⟨ho, hro, hlen⟩ := ih _ s1 out r hs1 hacc2 hr
    refine ⟨ho, hro, ?_⟩
    simp only [List.length_append, List.length_cons, List.length_nil] at hlen
    omega

theorem loadAppendix_wf (n : Nat) :
    ∀ acc s out r, AllBytes s →
    (∀ x ∈ acc, x.1 < 4294967296 ∧ x.2.1 < 4294967296 ∧ x.2.2.1 < 4294967296 ∧
      x.2.2.2 < 4294967296) →
    loadAppendix n acc s = .ok (out, r) →
    (∀ x ∈ out, x.1 < 4294967296 ∧ x.2.1 < 4294967296 ∧ x.2.2.1 < 4294967296 ∧
      x.2.2.2 < 4294967296) ∧ AllBytes r ∧ out.length = acc.length + n := by
  induction n with
  | zero =>
    intro acc s out r hs hacc hr
    simp only [loadAppendix, Except.ok.injEq, Prod.mk.injEq] at hr
    obtain ⟨h1, h2⟩ := hr
    subst h1
    subst h2
    exact ⟨hacc, hs, by omega⟩
  | succ n ih =>
    intro acc s out r hs hacc hr
    simp only [loadAppendix] at hr
    rw [bind_ok_iff] at hr
    obtain ⟨⟨a, s1⟩, h1, hr⟩ := hr
    dsimp only at hr
    rw [bind_ok_iff] at hr
    obtain ⟨⟨b, s2⟩, h2, hr⟩ := hr
    dsimp only at hr
    rw [bind_ok_iff] at hr
    obtain ⟨⟨c, s3⟩, h3, hr⟩ := hr
    dsimp only at hr
    rw [bind_ok_iff] at hr
    obtain ⟨⟨d, s4⟩, h4, hr⟩ := hr
    dsimp only at hr
    obtain ⟨ha, hs1⟩ := readU32_wf s a s1 hs h1
    obtain ⟨hb, hs2⟩ := readU32_wf s1 b s2 hs1 h2
    obtain ⟨hc, hs3⟩ := readU32_wf s2 c s3 hs2 h3
    obtain ⟨hd, hs4⟩ := readU32_wf s3 d s4 hs3 h4
    have hacc2 : ∀ x ∈ acc ++ [(a, b, c, d)], x.1 < 4294967296 ∧ x.2.1 < 4294967296 ∧
        x.2.2.1 < 4294967296 ∧ x.2.2.2 < 4294967296 := by
      intro x hx
      rcases List.mem_append.mp hx with hx | hx
      · exact hacc x hx
      · simp only [List.mem_singleton] at hx
        subst hx
        exact ⟨ha, hb, hc, hd⟩
    obtain ⟨ho, hro, hlen⟩ := ih _ s4 out r hs4 hacc2 hr
    refine ⟨ho, hro, ?_⟩
    simp only [List.length_append, List.length_cons, List.length_nil] at hlen
    omega

theorem loadAnimation_wf (s : Bytes) (a : Animation) (r : Bytes) (hs : AllBytes s)
    (hr : loadAnimation s = .ok (a, r)) : AnimationWF a ∧ AllBytes r := by
  unfold loadAnimation at hr
  rw [bind_ok_iff] at hr
  obtain ⟨⟨u1, s1⟩, h1, hr⟩ := hr
  dsimp only at hr
  rw [bind_ok_iff] at hr
  obtain ⟨⟨l, s2⟩, h2, hr⟩ := hr
  dsimp only at hr
  rw [bind_ok_iff] at hr
  obtain ⟨⟨t, s3⟩, h3, hr⟩ := hr
  dsimp only at hr
  rw [bind_ok_iff] at hr
  obtain ⟨⟨ri, s4⟩, h4, hr⟩ := hr
  dsimp only at hr
  rw [bind_ok_iff] at hr
  obtain ⟨⟨bo, s5⟩, h5, hr⟩ := hr
  dsimp only at hr
  rw [bind_ok_iff] at hr
  obtain ⟨⟨ox, s6⟩, h6, hr⟩ := hr
  dsimp only at hr
  rw [bind_ok_iff] at hr
  obtain ⟨⟨oy, s7⟩, h7, hr⟩ := hr
  dsimp only at hr
  rw [bind_ok_iff] at hr
  obtain ⟨⟨u2, s8⟩, h8, hr⟩ := hr
  dsimp only at hr
  rw [bind_ok_iff] at hr
  obtain ⟨⟨fc, s9⟩, h9, hr⟩ := hr
  dsimp only at hr
  rw [bind_ok_iff] at hr
  obtain ⟨⟨frames, s10⟩, h10, hr⟩ := hr
  dsimp only at hr
  rw [bind_ok_iff] at hr
  obtain ⟨⟨u3, s11⟩, h11, hr⟩ := hr
  dsimp only at hr
  rw [bind_ok_iff] at hr
  obtain ⟨⟨appendix, s12⟩, h12, hr⟩ := hr
  dsimp only at hr
  obtain ⟨hu1, hs1⟩ := readU32_wf s u1 s1 hs h1
  obtain ⟨hl, hs2⟩ := readU32_wf s1 l s2 hs1 h2
  obtain ⟨ht, hs3⟩ := readU32_wf s2 t s3 hs2 h3
  obtain ⟨hri, hs4⟩ := readU32_wf s3 ri s4 hs3 h4
  obtain ⟨hbo, hs5⟩ := readU32_wf s4 bo s5 hs4 h5
  obtain ⟨hox, hs6⟩ := readU32_wf s5 ox s6 hs5 h6
  obtain ⟨hoy, hs7⟩ := readU32_wf s6 oy s7 hs6 h7
  obtain ⟨hu2, hs8⟩ := readU32_wf s7 u2 s8 hs7 h8
  obtain ⟨hfc, hs9⟩ := readU32_wf s8 fc s9 hs8 h9
  obtain ⟨hfr, hs10, hflen⟩ := loadFrames_wf fc [] s9 frames s10 hs9 (by simp) h10
  obtain ⟨hu3, hs11⟩ := readU32_wf s10 u3 s11 hs10 h11
  obtain ⟨hap, hs12, haplen⟩ := loadAppendix_wf u3 [] s11 appendix s12 hs11 (by simp) h12
  injection hr with ha
  injection ha with hb hc
  subst hb
  subst hc
  simp only [List.length_nil] at hflen haplen
  exact ⟨⟨hu1, hl, ht, hri, hbo, hox, hoy, hu2, by show frames.length < 4294967296; omega,
    by show u3 = appendix.length; omega, by show appendix.length < 4294967296; omega,
    hfr, hap⟩, hs12⟩

theorem loadAnimations_wf (n : Nat) :
    ∀ acc s out r, AllBytes s → (∀ a ∈ acc, AnimationWF a) →
    loadAnimations n acc s = .ok (out, r) →
    (∀ a ∈ out, AnimationWF a) ∧ AllBytes r ∧ out.length = acc.length + n := by
  induction n with
  | zero =>
    intro acc s out r hs hacc hr
    simp only [loadAnimations, Except.ok.injEq, Prod.mk.injEq] at hr
    obtain ⟨h1, h2⟩ := hr
    subst h1
    subst h2
    exact ⟨hacc, hs, by omega⟩
  | succ n ih =>
    intro acc s out r hs hacc hr
    simp only [loadAnimations] at hr
    rw [bind_ok_iff] at hr
    obtain ⟨⟨a, s1⟩, h1, hr⟩ := hr
    obtain ⟨ha, hs1⟩ := loadAnimation_wf s a s1 hs h1
    have hacc2 : ∀ x ∈ acc ++ [a], AnimationWF x := by
      intro x hx
      rcases List.mem_append.mp hx with hx | hx
      · exact hacc x hx
      · simp only [List.mem_singleton] at hx
        subst hx
        exact ha
    obtain ⟨ho, hro, hlen⟩ := ih _ s1 out r hs1 hacc2 hr
    refine ⟨ho, hro, ?_⟩
    simp only [List.length_append, List.length_cons, List.length_nil] at hlen
    omega

theorem loadAnimsChecked_wf (na nf ns : Nat) (s : Bytes) (out : List Animation) (r : Bytes)
    (hs : AllBytes s) (hr : loadAnimsChecked na nf ns s = .ok (out, r)) :
    (∀ a ∈ out, AnimationWF a) ∧ AllBytes r ∧ out.length = na ∧
    sumFrames out = nf ∧ sumSubframes out = ns := by
  unfold loadAnimsChecked at hr
  rw [bind_ok_iff] at hr
  obtain ⟨⟨anims, s1⟩, h1, hr⟩ := hr
  dsimp only at hr
  obtain ⟨ha, hs1, hlen⟩ := loadAnimations_wf na [] s anims s1 hs (by simp) h1
  split at hr
  · exact absurd hr (by simp)
  · split at hr
    · exact absurd hr (by simp)
    · split at hr
      · exact absurd hr (by simp)
      · next hc1 hc2 hc3 =>
        push_neg at hc1 hc2 hc3
        injection hr with hx
        injection hx with hy hz
        subst hy
        subst hz
        exact ⟨ha, hs1, hc1, hc2, hc3⟩

theorem Load_wf (prt bmpFile : Bytes) (c : PRTFile) (hprt : AllBytes prt)
    (hr : Load prt bmpFile = .ok c) : ContainerWF c := by
  unfold Load at hr
  rw [bind_ok_iff] at hr
  obtain ⟨⟨palettes, s1⟩, h1, hr⟩ := hr
  dsimp only at hr
  rw [bind_ok_iff] at hr
  obtain ⟨⟨bitmaps, s2⟩, h2, hr⟩ := hr
  dsimp only at hr
  rw [bind_ok_iff] at hr
  obtain ⟨⟨na, s3⟩, h3, hr⟩ := hr
  dsimp only at hr
  rw [bind_ok_iff] at hr
  obtain ⟨⟨nf, s4⟩, h4, hr⟩ := hr
  dsimp only at hr
  rw [bind_ok_iff] at hr
  obtain ⟨⟨ns, s5⟩, h5, hr⟩ := hr
  dsimp only at hr
  rw [bind_ok_iff] at hr
  obtain ⟨⟨no, s6⟩, h6, hr⟩ := hr
  dsimp only at hr
  rw [bind_ok_iff] at hr
  obtain ⟨⟨anims, s7⟩, h7, hr⟩ := hr
  dsimp only at hr
  obtain ⟨hpal, hs1, hpallen⟩ := loadPalettes_wf prt palettes s1 hprt h1
  obtain ⟨hbm, hs2, hbmlen⟩ := loadBitmaps_wf palettes bmpFile s1 bitmaps s2 hs1 h2
  obtain ⟨hna, hs3⟩ := readU32_wf s2 na s3 hs2 h3
  obtain ⟨hnf, hs4⟩ := readU32_wf s3 nf s4 hs3 h4
  obtain ⟨hns, hs5⟩ := readU32_wf s4 ns s5 hs4 h5
  obtain ⟨hno, hs6⟩ := readU32_wf s5 no s6 hs5 h6
  obtain ⟨hanim, hs7, halen, hfsum, hssum⟩ := loadAnimsChecked_wf na nf ns s6 anims s7 hs6 h7
  injection hr with hx
  subst hx
  exact ⟨hpallen, hpal, hbmlen, hbm, by show anims.length < 4294967296; omega,
    hanim, by show sumFrames anims < 4294967296; omega,
    by show sumSubframes anims < 4294967296; omega, hno⟩

/-! ## Serialization followed by parsing: the write side is a section of the
read side on well-formed containers -/

theorem readTag_spec (tag : Bytes) (n : Nat) (rest : Bytes) (hlen : tag.length = 4)
    (hn : n < 4294967296) : readTag (tag ++ (u32le n ++ rest)) = .ok ((tag, n), rest) := by
  unfold readTag
  rw [show (4 : Nat) = tag.length from hlen.symm, readBytes_append, ok_bind]
  dsimp only
  rw [readU32_u32le n rest hn, ok_bind]

theorem Color_eta (c : Color) :
    ({ r := c.r, g := c.g, b := c.b, flags := c.flags } : Color) = c := rfl

theorem writeColor_ok (c : Color) (h : ColorWF c) :
    writeColor c = .ok [c.b, c.g, c.r, c.flags] := by
  unfold writeColor
  obtain ⟨h1, h2, h3, h4⟩ := h
  rw [if_pos ⟨h3, h2, h1, h4⟩]

theorem writeColors_spec (cs : List Color) (h : ∀ c ∈ cs, ColorWF c) :
    ∃ bs, writeColors cs = .ok bs ∧ bs.length = 4 * cs.length ∧
    ∀ acc rest, readColors cs.length acc (bs ++ rest) = .ok (acc ++ cs, rest) := by
  induction cs with
  | nil =>
    refine ⟨[], rfl, rfl, ?_⟩
    intro acc rest
    simp [readColors]
  | cons c cs ih =>
    obtain ⟨bs, hbs, hlen, hread⟩ := ih (fun x hx => h x (by simp [hx]))
    have hc : ColorWF c := h c (by simp)
    refine ⟨[c.b, c.g, c.r, c.flags] ++ bs, ?_, by simp [hlen]; omega, ?_⟩
    · unfold writeColors
      rw [writeColor_ok c hc, ok_bind, hbs, ok_bind]
    · intro acc rest
      show readColors (cs.length + 1) acc (([c.b, c.g, c.r, c.flags] ++ bs) ++ rest) = _
      simp only [List.cons_append, List.nil_append]
      simp only [readColors]
      rw [Color_eta]
      rw [hread (acc ++ [c]) rest]
      simp

theorem writePalette_spec (p : Palette) (hwf : ∀ c ∈ p.colors, ColorWF c)
    (hlen : p.colors.length = 256) :
    ∃ bs, writePalette p = .ok bs ∧ bs.length = 1052 ∧
    ∀ f rest, loadPalTags (f + 3) 2 [] (bs ++ rest) = .ok (p.colors, rest) := by
  obtain ⟨cb, hcb, hcblen, hread⟩ := writeColors_spec p.colors hwf
  refine ⟨tagPPAL ++ u32le 1048 ++ tagHead ++ u32le 4 ++ u32le 1 ++ tagData ++ u32le 1024 ++ cb,
    ?_, by simp [hcblen, hlen, tagPPAL, tagHead, tagData, u32le], ?_⟩
  · unfold writePalette
    rw [hcb, ok_bind]
  · intro f rest
    simp only [List.append_assoc]
    show loadPalTags (f + 2 + 1) (1 + 1) [] _ = _
    simp only [loadPalTags]
    rw [readTag_spec tagPPAL 1048 _ rfl (by norm_num), ok_bind]
    dsimp only
    rw [if_pos rfl, if_neg (by norm_num)]
    show loadPalTags (f + 1 + 1) (0 + 1) [] _ = _
    simp only [loadPalTags]
    rw [readTag_spec tagHead 4 _ rfl (by norm_num), ok_bind]
    dsimp only
    rw [if_neg (by decide), if_neg (by decide), if_pos rfl, if_neg (by norm_num)]
    rw [readU32_u32le 1 _ (by norm_num), ok_bind]
    dsimp only
    show loadPalTags (f + 1) (0 + 1) [] _ = _
    simp only [loadPalTags]
    rw [readTag_spec tagData 1024 _ rfl (by norm_num), ok_bind]
    dsimp only
    rw [if_neg (by decide), if_neg (by decide), if_neg (by decide), if_pos rfl,
      if_neg (by norm_num)]
    have h256 : (256 : Nat) = p.colors.length := hlen.symm
    rw [h256, hread [] rest, ok_bind]
    dsimp only
    simp [loadPalTags]

theorem Palette_eta (p : Palette) : ({ colors := p.colors } : Palette) = p := rfl

theorem writePaletteEntries_spec (ps : List Palette)
    (hwf : ∀ p ∈ ps, ∀ c ∈ p.colors, ColorWF c)
    (hlen : ∀ p ∈ ps, p.colors.length = 256) :
    ∃ bs, writePaletteEntries ps = .ok bs ∧
    ∀ acc rest, loadPaletteEntries ps.length acc (bs ++ rest) = .ok (acc ++ ps, rest) := by
  induction ps with
  | nil =>
    refine ⟨[], rfl, ?_⟩
    intro acc rest
    simp [loadPaletteEntries]
  | cons p ps ih =>
    obtain ⟨bs, hbs, hread⟩ := ih (fun x hx => hwf x (by simp [hx]))
      (fun x hx => hlen x (by simp [hx]))
    obtain ⟨pb, hpb, hpblen, hpread⟩ :=
      writePalette_spec p (hwf p (by simp)) (hlen p (by simp))
    refine ⟨pb ++ bs, ?_, ?_⟩
    · unfold writePaletteEntries
      rw [hpb, ok_bind, hbs, ok_bind]
    · intro acc rest
      show loadPaletteEntries (ps.length + 1) acc ((pb ++ bs) ++ rest) = _
      simp only [loadPaletteEntries, List.append_assoc]
      have hfuel : (pb ++ (bs ++ rest)).length + 1 = ((bs ++ rest).length + 1050) + 3 := by
        simp [hpblen]
        omega
      rw [hfuel, hpread ((bs ++ rest).length + 1050) (bs ++ rest), ok_bind]
      dsimp only
      rw [Palette_eta, hread (acc ++ [p]) rest]
      simp

theorem writePalettes_spec (ps : List Palette)
    (hwf : ∀ p ∈ ps, ∀ c ∈ p.colors, ColorWF c)
    (hlen : ∀ p ∈ ps, p.colors.length = 256)
    (hcount : ps.length < 4294967296) :
    ∃ bs, writePalettes ps = .ok bs ∧
    ∀ rest, loadPalettes (bs ++ rest) = .ok (ps, rest) := by
  obtain ⟨body, hbody, hread⟩ := writePaletteEntries_spec ps hwf hlen
  refine ⟨tagCPAL ++ u32le ps.length ++ body, ?_, ?_⟩
  · unfold writePalettes
    rw [packU32_ok _ hcount, ok_bind, hbody, ok_bind]
  · intro rest
    unfold loadPalettes
    simp only [List.append_assoc]
    rw [readTag_spec tagCPAL ps.length _ rfl hcount, ok_bind]
    dsimp only
    rw [if_neg (by simp)]
    rw [hread [] rest]
    simp

/-- Total pixel-data length of a list of bitmaps (the length of the master
pixel buffer `_WriteBitmaps` builds). -/
def totalDataLen (l : List Bitmap) : Nat := (l.map (fun b => b.data.length)).sum

theorem totalDataLen_cons (b : Bitmap) (l : List Bitmap) :
    totalDataLen (b :: l) = b.data.length + totalDataLen l := by
  simp [totalDataLen]

theorem Bitmap_eta_fields (bmp : Bitmap) (pal : Palette) (data : Bytes)
    (h1 : pal = bmp.palette) (h2 : data = bmp.data) :
    ({ palette := pal, palette_id := bmp.palette_id, image_type := bmp.image_type,
       width := bmp.width, height := bmp.height, data := data } : Bitmap) = bmp := by
  subst h1
  subst h2
  rfl

theorem loadOneBitmap_spec (palettes : List Palette) (ds : Nat) (bmpFull : Bytes)
    (bmp : Bitmap) (start : Nat) (tail rest : Bytes)
    (hwf : BitmapWF palettes bmp)
    (hdata : bmp.data.length = paddedWidth bmp.width * bmp.height)
    (hpw : paddedWidth bmp.width < 4294967296)
    (hstart : start < 4294967296)
    (hdrop : bmpFull.drop (start + ds) = bmp.data ++ tail) :
    loadOneBitmap palettes ds bmpFull
      (u32le (paddedWidth bmp.width) ++ u32le start ++ u32le bmp.height ++ u32le bmp.width ++
       i16le bmp.image_type ++ i16le bmp.palette_id ++ rest) = .ok (bmp, rest) := by
  obtain ⟨hp1, hp2, hp2b, hp3, hit1, hit2, hw, hh⟩ := hwf
  unfold loadOneBitmap
  simp only [List.append_assoc]
  rw [readU32_u32le _ _ hpw, ok_bind]
  dsimp only
  rw [readU32_u32le _ _ hstart, ok_bind]
  dsimp only
  rw [readU32_u32le _ _ hh, ok_bind]
  dsimp only
  rw [readU32_u32le _ _ hw, ok_bind]
  dsimp only
  rw [readI16_i16le _ _ hit1 hit2, ok_bind]
  dsimp only
  rw [readI16_i16le _ _ (by omega) (by omega), ok_bind]
  dsimp only
  rw [if_neg (by omega)]
  rw [hdrop, ← hdata, List.take_left]
  rw [Bitmap_eta_fields bmp _ _ hp3.symm rfl]

theorem writeBitmapRecords_spec (palettes : List Palette) (l : List Bitmap) :
    ∀ start, (∀ b ∈ l, BitmapWF palettes b) →
    (∀ b ∈ l, b.data.length = paddedWidth b.width * b.height ∧
      paddedWidth b.width < 4294967296) →
    start + totalDataLen l < 4294967296 →
    ∃ meta master, writeBitmapRecords l start = .ok (meta, master) ∧
      master.length = totalDataLen l ∧
      ∀ ds bmpFull acc rest tail, bmpFull.drop (start + ds) = master ++ tail →
        loadBitmapEntries palettes ds bmpFull l.length acc (meta ++ rest) =
          .ok (acc ++ l, rest) := by
  induction l with
  | nil =>
    intro start hwf hdata htot
    refine ⟨[], [], rfl, rfl, ?_⟩
    intro ds bmpFull acc rest tail hdrop
    simp [loadBitmapEntries]
  | cons bmp rest_l ih =>
    intro start hwf hdata htot
    have hb := hwf bmp (by simp)
    have hd := hdata bmp (by simp)
    have htot2 : start + bmp.data.length + totalDataLen rest_l < 4294967296 := by
      rw [totalDataLen_cons] at htot
      omega
    obtain ⟨meta, master, hmw, hmlen, hread⟩ := ih (start + bmp.data.length)
      (fun x hx => hwf x (by simp [hx])) (fun x hx => hdata x (by simp [hx])) htot2
    obtain ⟨hbp1, hbp2, hbp3, hbp4, hbp5, hbp6, hwlt, hhlt⟩ := hb
    refine ⟨u32le (paddedWidth bmp.width) ++ u32le start ++ u32le bmp.height ++
      u32le bmp.width ++ i16le bmp.image_type ++ i16le bmp.palette_id ++ meta,
      bmp.data ++ master, ?_, ?_, ?_⟩
    · unfold writeBitmapRecords
      rw [packU32_ok _ hd.2, ok_bind, packU32_ok _ (by omega), ok_bind,
        packU32_ok _ hhlt, ok_bind, packU32_ok _ hwlt, ok_bind,
        packI16_ok _ hbp5 hbp6, ok_bind,
        packI16_ok _ (by omega) (by omega), ok_bind, hmw, ok_bind]
    · rw [totalDataLen_cons]
      simp [hmlen]
    · intro ds bmpFull acc rest tail hdrop
      show loadBitmapEntries palettes ds bmpFull (rest_l.length + 1) acc _ = _
      simp only [loadBitmapEntries, List.append_assoc]
      rw [bind_ok_iff]
      refine ⟨(bmp, meta ++ rest), ?_, ?_⟩
      · have hdrop2 : bmpFull.drop (start + ds) = bmp.data ++ (master ++ tail) := by
          rw [hdrop]
          simp
        exact loadOneBitmap_spec palettes ds bmpFull bmp start (master ++ tail)
          (meta ++ rest) ⟨hbp1, hbp2, hbp3, hbp4, hbp5, hbp6, hwlt, hhlt⟩
          hd.1 hd.2 (by omega) hdrop2
      · dsimp only
        have hdrop3 : bmpFull.drop (start + bmp.data.length + ds) = master ++ tail := by
          have e1 : start + bmp.data.length + ds = (start + ds) + bmp.data.length := by omega
          rw [e1, ← List.drop_drop, hdrop]
          rw [show bmp.data ++ master ++ tail = bmp.data ++ (master ++ tail) by simp,
            List.drop_left]
        rw [hread ds bmpFull (acc ++ [bmp]) rest tail hdrop3]
        simp

theorem writeBMPFile_take2 (d : Bytes) : (writeBMPFile d).take 2 = tagBM := by
  unfold writeBMPFile
  rw [show (2 : Nat) = tagBM.length from rfl]
  exact List.take_left _ _

theorem writeBMPFile_length (d : Bytes) : (writeBMPFile d).length = 1078 + d.length := by
  unfold writeBMPFile
  simp only [List.length_append, List.length_replicate,
    show tagBM.length = 2 from rfl, show (u32le 1078).length = 4 from rfl]

theorem writeBMPFile_dataStart (d : Bytes) :
    leNat (((writeBMPFile d).drop 10).take 4) = 1078 := by
  unfold writeBMPFile
  rw [List.append_assoc, List.append_assoc]
  rw [show (10 : Nat) = (tagBM ++ List.replicate 8 0).length from rfl]
  rw [List.drop_left]
  rw [show (4 : Nat) = (u32le 1078).length from rfl]
  rw [List.take_left]
  rfl

theorem writeBMPFile_drop1078 (d : Bytes) : (writeBMPFile d).drop 1078 = d := by
  unfold writeBMPFile
  have hlen : (tagBM ++ List.replicate 8 0 ++ u32le 1078 ++ List.replicate 1064 0).length
      = 1078 := by
    rw [List.length_append, List.length_append, List.length_append,
      List.length_replicate, List.length_replicate,
      show tagBM.length = 2 from rfl, show (u32le 1078).length = 4 from rfl]
  nth_rewrite 1 [← hlen]
  rw [List.drop_left]

theorem writeBitmaps_spec (palettes : List Palette) (bitmaps : List Bitmap)
    (hwf : ∀ b ∈ bitmaps, BitmapWF palettes b)
    (hdata : ∀ b ∈ bitmaps, b.data.length = paddedWidth b.width * b.height ∧
      paddedWidth b.width < 4294967296)
    (htot : totalDataLen bitmaps < 4294967296)
    (hcount : bitmaps.length < 4294967296) :
    ∃ meta bmpFull, writeBitmaps bitmaps = .ok (meta, bmpFull) ∧
    ∀ rest, loadBitmaps palettes bmpFull (meta ++ rest) = .ok (bitmaps, rest) := by
  obtain ⟨meta, master, hmw, hmlen, hread⟩ :=
    writeBitmapRecords_spec palettes bitmaps 0 hwf hdata (by omega)
  refine ⟨u32le bitmaps.length ++ meta, writeBMPFile master, ?_, ?_⟩
  · unfold writeBitmaps
    rw [packU32_ok _ hcount, ok_bind, hmw, ok_bind]
  · intro rest
    unfold loadBitmaps
    rw [if_neg (by rw [writeBMPFile_length]; omega),
      if_neg (by rw [writeBMPFile_take2]; simp)]
    rw [bind_ok_iff]
    refine ⟨(bitmaps.length, meta ++ rest), ?_, ?_⟩
    · rw [List.append_assoc]
      exact readU32_u32le bitmaps.length (meta ++ rest) hcount
    · dsimp only
      rw [writeBMPFile_dataStart]
      have hdrop : (writeBMPFile master).drop (0 + 1078) = master ++ [] := by
        rw [writeBMPFile_drop1078 master]
        simp
      rw [hread 1078 (writeBMPFile master) [] rest [] hdrop]
      simp

theorem Subframe_eta (sf : Subframe) :
    ({ bitmap_id := sf.bitmap_id, unknown := sf.unknown, subframe_id := sf.subframe_id,
       off_x := sf.off_x, off_y := sf.off_y } : Subframe) = sf := rfl

theorem writeSubframe_spec (sf : Subframe) (hwf : SubframeWF sf) :
    ∃ bs, writeSubframe sf = .ok bs ∧
    ∀ rest, loadSubframe (bs ++ rest) = .ok (sf, rest) := by
  obtain ⟨h1, h2, h3, h4, h5, h6, h7, h8⟩ := hwf
  refine ⟨i16le sf.bitmap_id ++ [sf.unknown] ++ [sf.subframe_id] ++ i16le sf.off_x ++
    i16le sf.off_y, ?_, ?_⟩
  · unfold writeSubframe
    rw [packI16_ok _ h1 h2, ok_bind, packU8_ok _ h3, ok_bind, packU8_ok _ h4, ok_bind,
      packI16_ok _ h5 h6, ok_bind, packI16_ok _ h7 h8, ok_bind]
  · intro rest
    unfold loadSubframe
    simp only [List.append_assoc, List.cons_append, List.nil_append]
    rw [readI16_i16le _ _ h1 h2, ok_bind]
    dsimp only
    rw [readU8_cons, ok_bind]
    dsimp only
    rw [readU8_cons, ok_bind]
    dsimp only
    rw [readI16_i16le _ _ h5 h6, ok_bind]
    dsimp only
    rw [readI16_i16le _ _ h7 h8, ok_bind]

theorem writeSubframes_spec (l : List Subframe) (hwf : ∀ sf ∈ l, SubframeWF sf) :
    ∃ bs, writeSubframes l = .ok bs ∧
    ∀ acc rest, loadSubframes l.length acc (bs ++ rest) = .ok (acc ++ l, rest) := by
  induction l with
  | nil =>
    refine ⟨[], rfl, ?_⟩
    intro acc rest
    simp [loadSubframes]
  | cons sf l ih =>
    obtain ⟨bs, hbs, hread⟩ := ih (fun x hx => hwf x (by simp [hx]))
    obtain ⟨sb, hsb, hsread⟩ := writeSubframe_spec sf (hwf sf (by simp))
    refine ⟨sb ++ bs, ?_, ?_⟩
    · unfold writeSubframes
      rw [hsb, ok_bind, hbs, ok_bind]
    · intro acc rest
      show loadSubframes (l.length + 1) acc ((sb ++ bs) ++ rest) = _
      simp only [loadSubframes, List.append_assoc]
      rw [hsread (bs ++ rest), ok_bind]
      dsimp only
      rw [hread (acc ++ [sf]) rest]
      simp

theorem Frame_eta_fields (f : Frame) (o1 o2 o3 o4 : Option Nat)
    (h1 : o1 = f.optional1) (h2 : o2 = f.optional2)
    (h3 : o3 = f.optional3) (h4 : o4 = f.optional4) :
    ({ subframes := f.subframes, unknown := f.unknown, optional1 := o1, optional2 := o2,
       optional3 := o3, optional4 := o4 } : Frame) = f := by
  subst h1
  subst h2
  subst h3
  subst h4
  rfl

theorem intOpt_some (v : Nat) : intOpt (some v) = .ok v := rfl

theorem readOptPair_absent (v : Nat) (hv : v < 128) (s : Bytes) :
    readOptPair v s = .ok ((v, none, none), s) := by
  unfold readOptPair
  rw [if_neg]
  simp [flag_clear_of_lt128 v hv]

theorem readOptPair_present (v x y : Nat) (hv : v < 128) (s : Bytes) :
    readOptPair (v ||| 128) (x :: y :: s) = .ok ((v, some x, some y), s) := by
  unfold readOptPair
  rw [if_pos (lor128_facts v hv).2.1, readU8Pair_cons, ok_bind]
  dsimp only
  rw [(lor128_facts v hv).2.2]

theorem writeFrame_spec (f : Frame) (hwf : FrameWF f) :
    ∃ bs, writeFrame f = .ok bs ∧ ∀ rest, loadFrame (bs ++ rest) = .ok (f, rest) := by
  obtain ⟨hlen, hunk, hp12, hp34, hsfs⟩ := hwf
  obtain ⟨sfb, hsfb, hsfread⟩ := writeSubframes_spec f.subframes hsfs
  rcases ho1 : f.optional1 with _ | x1 <;> rcases ho2 : f.optional2 with _ | x2 <;>
    rw [ho1, ho2] at hp12
  case none.some => exact hp12.elim
  case some.none => exact hp12.elim
  case none.none =>
    rcases ho3 : f.optional3 with _ | x3 <;> rcases ho4 : f.optional4 with _ | x4 <;>
      rw [ho3, ho4] at hp34
    case none.some => exact hp34.elim
    case some.none => exact hp34.elim
    case none.none =>
      refine ⟨[f.subframes.length] ++ [f.unknown] ++ [] ++ [] ++ sfb, ?_, ?_⟩
      · unfold writeFrame
        simp [ho1, ho2, ho3, ho4, hsfb, pure_eq_ok, ok_bind,
          packU8_ok f.subframes.length (by omega), packU8_ok f.unknown (by omega)]
      · intro rest
        unfold loadFrame
        simp only [List.append_assoc, List.cons_append, List.nil_append]
        rw [readU8Pair_cons, ok_bind]
        dsimp only
        rw [readOptPair_absent _ hlen, ok_bind]
        dsimp only
        rw [readOptPair_absent _ hunk, ok_bind]
        dsimp only
        rw [show loadSubframes f.subframes.length [] (sfb ++ rest) =
          .ok ([] ++ f.subframes, rest) from hsfread [] rest, ok_bind]
        dsimp only
        rw [List.nil_append, Frame_eta_fields f _ _ _ _ ho1.symm ho2.symm ho3.symm ho4.symm]
    case some.some =>
      obtain ⟨hx3, hx4⟩ := hp34
      refine ⟨[f.subframes.length] ++ [f.unknown ||| 128] ++ [] ++ ([x3] ++ [x4]) ++ sfb,
        ?_, ?_⟩
      · unfold writeFrame
        simp [ho1, ho2, ho3, ho4, hsfb, pure_eq_ok, ok_bind, intOpt_some,
          packU8_ok f.subframes.length (by omega),
          packU8_ok (f.unknown ||| 128) (lor128_facts f.unknown hunk).1,
          packU8_ok x3 hx3, packU8_ok x4 hx4]
      · intro rest
        unfold loadFrame
        simp only [List.append_assoc, List.cons_append, List.nil_append]
        rw [readU8Pair_cons, ok_bind]
        dsimp only
        rw [readOptPair_absent _ hlen, ok_bind]
        dsimp only
        rw [readOptPair_present _ _ _ hunk, ok_bind]
        dsimp only
        rw [show loadSubframes f.subframes.length [] (sfb ++ rest) =
          .ok ([] ++ f.subframes, rest) from hsfread [] rest, ok_bind]
        dsimp only
        rw [List.nil_append, Frame_eta_fields f _ _ _ _ ho1.symm ho2.symm ho3.symm ho4.symm]
  case some.some =>
    obtain ⟨hx1, hx2⟩ := hp12
    rcases ho3 : f.optional3 with _ | x3 <;> rcases ho4 : f.optional4 with _ | x4 <;>
      rw [ho3, ho4] at hp34
    case none.some => exact hp34.elim
    case some.none => exact hp34.elim
    case none.none =>
      refine ⟨[f.subframes.length ||| 128] ++ [f.unknown] ++ ([x1] ++ [x2]) ++ [] ++ sfb,
        ?_, ?_⟩
      · unfold writeFrame
        simp [ho1, ho2, ho3, ho4, hsfb, pure_eq_ok, ok_bind, intOpt_some,
          packU8_ok (f.subframes.length ||| 128) (lor128_facts f.subframes.length hlen).1,
          packU8_ok f.unknown (by omega),
          packU8_ok x1 hx1, packU8_ok x2 hx2]
      · intro rest
        unfold loadFrame
        simp only [List.append_assoc, List.cons_append, List.nil_append]
        rw [readU8Pair_cons, ok_bind]
        dsimp only
        rw [readOptPair_present _ _ _ hlen, ok_bind]
        dsimp only
        rw [readOptPair_absent _ hunk, ok_bind]
        dsimp only
        rw [show loadSubframes f.subframes.length [] (sfb ++ rest) =
          .ok ([] ++ f.subframes, rest) from hsfread [] rest, ok_bind]
        dsimp only
        rw [List.nil_append, Frame_eta_fields f _ _ _ _ ho1.symm ho2.symm ho3.symm ho4.symm]
    case some.some =>
      obtain ⟨hx3, hx4⟩ := hp34
      refine ⟨[f.subframes.length ||| 128] ++ [f.unknown ||| 128] ++ ([x1] ++ [x2]) ++
        ([x3] ++ [x4]) ++ sfb, ?_, ?_⟩
      · unfold writeFrame
        simp [ho1, ho2, ho3, ho4, hsfb, pure_eq_ok, ok_bind, intOpt_some,
          packU8_ok (f.subframes.length ||| 128) (lor128_facts f.subframes.length hlen).1,
          packU8_ok (f.unknown ||| 128) (lor128_facts f.unknown hunk).1,
          packU8_ok x1 hx1, packU8_ok x2 hx2, packU8_ok x3 hx3, packU8_ok x4 hx4]
      · intro rest
        unfold loadFrame
        simp only [List.append_assoc, List.cons_append, List.nil_append]
        rw [readU8Pair_cons, ok_bind]
        dsimp only
        rw [readOptPair_present _ _ _ hlen, ok_bind]
        dsimp only
        rw [readOptPair_present _ _ _ hunk, ok_bind]
        dsimp only
        rw [show loadSubframes f.subframes.length [] (sfb ++ rest) =
          .ok ([] ++ f.subframes, rest) from hsfread [] rest, ok_bind]
        dsimp only
        rw [List.nil_append, Frame_eta_fields f _ _ _ _ ho1.symm ho2.symm ho3.symm ho4.symm]

theorem writeFrames_spec (l : List Frame) (hwf : ∀ f ∈ l, FrameWF f) :
    ∃ bs, writeFrames l = .ok bs ∧
    ∀ acc rest, loadFrames l.length acc (bs ++ rest) = .ok (acc ++ l, rest) := by
  induction l with
  | nil =>
    refine ⟨[], rfl, ?_⟩
    intro acc rest
    simp [loadFrames]
  | cons f l ih =>
    obtain ⟨bs, hbs, hread⟩ := ih (fun x hx => hwf x (by simp [hx]))
    obtain ⟨fb, hfb, hfread⟩ := writeFrame_spec f (hwf f (by simp))
    refine ⟨fb ++ bs, ?_, ?_⟩
    · unfold writeFrames
      rw [hfb, ok_bind, hbs, ok_bind]
    · intro acc rest
      show loadFrames (l.length + 1) acc ((fb ++ bs) ++ rest) = _
      simp only [loadFrames, List.append_assoc]
      rw [hfread (bs ++ rest), ok_bind]
      dsimp only
      rw [hread (acc ++ [f]) rest]
      simp

theorem writeAppendix_spec (l : List (Nat × Nat × Nat × Nat))
    (hwf : ∀ x ∈ l, x.1 < 4294967296 ∧ x.2.1 < 4294967296 ∧ x.2.2.1 < 4294967296 ∧
      x.2.2.2 < 4294967296) :
    ∃ bs, writeAppendix l = .ok bs ∧
    ∀ acc rest, loadAppendix l.length acc (bs ++ rest) = .ok (acc ++ l, rest) := by
  induction l with
  | nil =>
    refine ⟨[], rfl, ?_⟩
    intro acc rest
    simp [loadAppendix]
  | cons x l ih =>
    obtain ⟨a, b, c, d⟩ := x
    obtain ⟨bs, hbs, hread⟩ := ih (fun y hy => hwf y (by simp [hy]))
    obtain ⟨ha, hb, hc, hd⟩ := hwf (a, b, c, d) (by simp)
    refine ⟨u32le a ++ u32le b ++ u32le c ++ u32le d ++ bs, ?_, ?_⟩
    · unfold writeAppendix
      rw [packU32_ok _ ha, ok_bind, packU32_ok _ hb, ok_bind, packU32_ok _ hc, ok_bind,
        packU32_ok _ hd, ok_bind, hbs, ok_bind]
    · intro acc rest
      show loadAppendix (l.length + 1) acc _ = _
      simp only [loadAppendix, List.append_assoc]
      rw [readU32_u32le _ _ ha, ok_bind]
      dsimp only
      rw [readU32_u32le _ _ hb, ok_bind]
      dsimp only
      rw [readU32_u32le _ _ hc, ok_bind]
      dsimp only
      rw [readU32_u32le _ _ hd, ok_bind]
      dsimp only
      rw [hread (acc ++ [(a, b, c, d)]) rest]
      simp

theorem Animation_eta_fields (a : Animation) (u3 : Nat) (h : u3 = a.unknown3) :
    ({ unknown1 := a.unknown1,
       bounding_box :=
         ⟨a.bounding_box.left, a.bounding_box.top, a.bounding_box.right, a.bounding_box.bottom⟩,
       offset := ⟨a.offset.x, a.offset.y⟩,
       unknown2 := a.unknown2, frames := a.frames,
       unknown3 := u3, appendix := a.appendix } : Animation) = a := by
  subst h
  rfl

theorem writeAnimation_spec (a : Animation) (hwf : AnimationWF a) :
    ∃ bs, writeAnimation a = .ok bs ∧
    ∀ rest, loadAnimation (bs ++ rest) = .ok (a, rest) := by
  obtain ⟨h1, h2, h3, h4, h5, h6, h7, h8, h9, h10, h11, h12, h13⟩ := hwf
  obtain ⟨fb, hfb, hfread⟩ := writeFrames_spec a.frames h12
  obtain ⟨ab, hab, haread⟩ := writeAppendix_spec a.appendix h13
  refine ⟨u32le a.unknown1 ++ u32le a.bounding_box.left ++ u32le a.bounding_box.top ++
    u32le a.bounding_box.right ++ u32le a.bounding_box.bottom ++ u32le a.offset.x ++
    u32le a.offset.y ++ u32le a.unknown2 ++ u32le a.frames.length ++ fb ++
    u32le a.unknown3 ++ ab, ?_, ?_⟩
  · unfold writeAnimation
    rw [packU32_ok _ h1, ok_bind, packU32_ok _ h2, ok_bind, packU32_ok _ h3, ok_bind,
      packU32_ok _ h4, ok_bind, packU32_ok _ h5, ok_bind, packU32_ok _ h6, ok_bind,
      packU32_ok _ h7, ok_bind, packU32_ok _ h8, ok_bind, packU32_ok _ h9, ok_bind,
      hfb, ok_bind, packU32_ok _ (by omega), ok_bind, hab, ok_bind]
  · intro rest
    unfold loadAnimation
    simp only [List.append_assoc]
    rw [readU32_u32le _ _ h1, ok_bind]
    dsimp only
    rw [readU32_u32le _ _ h2, ok_bind]
    dsimp only
    rw [readU32_u32le _ _ h3, ok_bind]
    dsimp only
    rw [readU32_u32le _ _ h4, ok_bind]
    dsimp only
    rw [readU32_u32le _ _ h5, ok_bind]
    dsimp only
    rw [readU32_u32le _ _ h6, ok_bind]
    dsimp only
    rw [readU32_u32le _ _ h7, ok_bind]
    dsimp only
    rw [readU32_u32le _ _ h8, ok_bind]
    dsimp only
    rw [readU32_u32le _ _ h9, ok_bind]
    dsimp only
    rw [show loadFrames a.frames.length [] (fb ++ (u32le a.unknown3 ++ (ab ++ rest))) =
      .ok ([] ++ a.frames, u32le a.unknown3 ++ (ab ++ rest)) from hfread [] _, ok_bind]
    dsimp only
    rw [readU32_u32le _ _ (by omega), ok_bind]
    dsimp only
    rw [h10]
    rw [show loadAppendix a.appendix.length [] (ab ++ rest) =
      .ok ([] ++ a.appendix, rest) from haread [] rest, ok_bind]
    dsimp only
    rw [List.nil_append, List.nil_append,
      Animation_eta_fields a a.appendix.length h10.symm]

theorem writeAnimations_spec (l : List Animation) (hwf : ∀ a ∈ l, AnimationWF a) :
    ∃ bs, writeAnimations l = .ok bs ∧
    ∀ acc rest, loadAnimations l.length acc (bs ++ rest) = .ok (acc ++ l, rest) := by
  induction l with
  | nil =>
    refine ⟨[], rfl, ?_⟩
    intro acc rest
    simp [loadAnimations]
  | cons a l ih =>
    obtain ⟨bs, hbs, hread⟩ := ih (fun x hx => hwf x (by simp [hx]))
    obtain ⟨abs1, hab, haread⟩ := writeAnimation_spec a (hwf a (by simp))
    refine ⟨abs1 ++ bs, ?_, ?_⟩
    · unfold writeAnimations
      rw [hab, ok_bind, hbs, ok_bind]
    · intro acc rest
      show loadAnimations (l.length + 1) acc ((abs1 ++ bs) ++ rest) = _
      simp only [loadAnimations, List.append_assoc]
      rw [haread (bs ++ rest), ok_bind]
      dsimp only
      rw [hread (acc ++ [a]) rest]
      simp

theorem Write_Load_spec (c : PRTFile) (hwf : ContainerWF c)
    (hpal256 : ∀ p ∈ c.palettes, p.colors.length = 256)
    (hbdata : ∀ b ∈ c.bitmaps, b.data.length = paddedWidth b.width * b.height ∧
      paddedWidth b.width < 4294967296)
    (htot : totalDataLen c.bitmaps < 4294967296) :
    ∃ prt2 bmp2, Write c = .ok (prt2, bmp2) ∧ Load prt2 bmp2 = .ok c := by
  obtain ⟨hplen, hpwf, hblen, hbwf, halen, hawf, hfs, hss, hno⟩ := hwf
  obtain ⟨palB, hpalW, hpalR⟩ := writePalettes_spec c.palettes hpwf hpal256 hplen
  obtain ⟨bmMeta, bmpFull, hbmW, hbmR⟩ :=
    writeBitmaps_spec c.palettes c.bitmaps hbwf hbdata htot hblen
  obtain ⟨animB, hanW, hanR⟩ := writeAnimations_spec c.animations hawf
  have hchecked : loadAnimsChecked c.animations.length (sumFrames c.animations)
      (sumSubframes c.animations) (animB ++ c.extra_data) = .ok (c.animations, c.extra_data) := by
    unfold loadAnimsChecked
    rw [show loadAnimations c.animations.length [] (animB ++ c.extra_data) =
      .ok ([] ++ c.animations, c.extra_data) from hanR [] c.extra_data, ok_bind]
    dsimp only
    rw [List.nil_append]
    rw [if_neg (by simp), if_neg (by simp), if_neg (by simp)]
  refine ⟨palB ++ bmMeta ++ u32le c.animations.length ++ u32le (sumFrames c.animations) ++
    u32le (sumSubframes c.animations) ++ u32le c.num_optional_entries ++ animB ++
    c.extra_data, bmpFull, ?_, ?_⟩
  · unfold Write
    rw [hpalW, ok_bind, hbmW, ok_bind]
    dsimp only
    rw [packU32_ok _ halen, ok_bind, packU32_ok _ hfs, ok_bind, packU32_ok _ hss, ok_bind,
      packU32_ok _ hno, ok_bind, hanW, ok_bind]
  · unfold Load
    simp only [List.append_assoc]
    rw [hpalR _, ok_bind]
    dsimp only
    rw [hbmR _, ok_bind]
    dsimp only
    rw [readU32_u32le _ _ halen, ok_bind]
    dsimp only
    rw [readU32_u32le _ _ hfs, ok_bind]
    dsimp only
    rw [readU32_u32le _ _ hss, ok_bind]
    dsimp only
    rw [readU32_u32le _ _ hno, ok_bind]
    dsimp only
    rw [hchecked, ok_bind]

/-! ## Further helper lemmas for the claims -/

set_option maxRecDepth 4096 in
theorem lor128_byte : ∀ b, b < 256 → b ||| 128 < 256 := by decide

set_option maxRecDepth 4096 in
theorem land127_of_lt128 : ∀ b, b < 128 → b &&& 127 = b := by decide

theorem loadAnimations_length (n : Nat) :
    ∀ acc s out r, loadAnimations n acc s = .ok (out, r) →
    out.length = acc.length + n := by
  induction n with
  | zero =>
    intro acc s out r hr
    simp only [loadAnimations, Except.ok.injEq, Prod.mk.injEq] at hr
    obtain ⟨h1, h2⟩ := hr
    subst h1
    omega
  | succ n ih =>
    intro acc s out r hr
    simp only [loadAnimations] at hr
    rw [bind_ok_iff] at hr
    obtain ⟨⟨a, s1⟩, h1, hr⟩ := hr
    have hlen := ih _ s1 out r hr
    simp only [List.length_append, List.length_cons, List.length_nil] at hlen
    omega

theorem loadSubframes_length (n : Nat) :
    ∀ acc s out r, loadSubframes n acc s = .ok (out, r) →
    out.length = acc.length + n := by
  induction n with
  | zero =>
    intro acc s out r hr
    simp only [loadSubframes, Except.ok.injEq, Prod.mk.injEq] at hr
    obtain ⟨h1, h2⟩ := hr
    subst h1
    omega
  | succ n ih =>
    intro acc s out r hr
    simp only [loadSubframes] at hr
    rw [bind_ok_iff] at hr
    obtain ⟨⟨sf, s1⟩, h1, hr⟩ := hr
    have hlen := ih _ s1 out r hr
    simp only [List.length_append, List.length_cons, List.length_nil] at hlen
    omega

theorem readColors_complete (n : Nat) :
    ∀ acc s, 4 * n ≤ s.length →
    ∃ cs, readColors n acc s = .ok (cs, s.drop (4 * n)) ∧ cs.length = acc.length + n := by
  induction n with
  | zero =>
    intro acc s h
    exact ⟨acc, by simp [readColors], by omega⟩
  | succ n ih =>
    intro acc s h
    match s with
    | [] => exact absurd h (by simp only [List.length_nil]; omega)
    | [_] => exact absurd h (by simp only [List.length_cons, List.length_nil]; omega)
    | [_, _] => exact absurd h (by simp only [List.length_cons, List.length_nil]; omega)
    | [_, _, _] => exact absurd h (by simp only [List.length_cons, List.length_nil]; omega)
    | b0 :: b1 :: b2 :: b3 :: rest =>
      simp only [readColors]
      have h4 : 4 * n ≤ rest.length := by
        simp only [List.length_cons] at h
        omega
      obtain ⟨cs, hcs, hlen⟩ := ih (acc ++ [{ r := b2, g := b1, b := b0, flags := b3 }])
        rest h4
      refine ⟨cs, ?_, ?_⟩
      · rw [hcs]
        rw [show 4 * (n + 1) = 4 + 4 * n from by ring, ← List.drop_drop]
        rfl
      · simp only [List.length_append, List.length_cons, List.length_nil] at hlen
        omega

theorem readOptPair_inv (flagByte : Nat) (s : Bytes) (v : Nat) (o1 o2 : Option Nat)
    (r : Bytes) (h : readOptPair flagByte s = .ok ((v, o1, o2), r)) :
    (flagByte &&& 128 ≠ 0 → ∃ a b t, s = a :: b :: t ∧ v = flagByte &&& 127 ∧
      o1 = some a ∧ o2 = some b ∧ r = t) ∧
    (flagByte &&& 128 = 0 → v = flagByte ∧ o1 = none ∧ o2 = none ∧ r = s) := by
  unfold readOptPair at h
  split at h
  · next hflag =>
    match s with
    | [] => exact absurd h (by simp [readU8Pair, error_bind])
    | [_] => exact absurd h (by simp [readU8Pair, error_bind])
    | a :: b :: t =>
      rw [readU8Pair_cons, ok_bind] at h
      dsimp only at h
      simp only [Except.ok.injEq, Prod.mk.injEq] at h
      obtain ⟨⟨hv, ho1, ho2⟩, hr⟩ := h
      refine ⟨fun _ => ⟨a, b, t, rfl, hv.symm, ho1.symm, ho2.symm, hr.symm⟩,
        fun hc => absurd hc hflag⟩
  · next hflag =>
    push_neg at hflag
    simp only [Except.ok.injEq, Prod.mk.injEq] at h
    obtain ⟨⟨hv, ho1, ho2⟩, hr⟩ := h
    exact ⟨fun hc => absurd hflag hc, fun _ => ⟨hv.symm, ho1.symm, ho2.symm, hr.symm⟩⟩

/-! ## The claims -/

/-- Claim C2: decoding the 4 on-disk bytes (b, g, r, flags) of a palette
color entry yields the in-memory color (red = r, green = g, blue = b,
flags = flags); encoding any in-memory color writes the 4 bytes
(blue, green, red, flags); hence re-encoding a decoded entry reproduces the
original 4 on-disk bytes exactly. -/
theorem c2_channel_swap (b g r fl : Nat) (rest : Bytes)
    (hb : b < 256) (hg : g < 256) (hr : r < 256) (hf : fl < 256) :
    readColors 1 [] (b :: g :: r :: fl :: rest) =
      .ok ([{ r := r, g := g, b := b, flags := fl }], rest) ∧
    writeColor { r := r, g := g, b := b, flags := fl } = .ok [b, g, r, fl] ∧
    (∀ c : Color, ColorWF c → writeColor c = .ok [c.b, c.g, c.r, c.flags]) := by
  refine ⟨by simp [readColors], ?_, writeColor_ok⟩
  unfold writeColor
  rw [if_pos ⟨hb, hg, hr, hf⟩]

/-- Witness for C2 at the spec example: on-disk bytes (10, 20, 30, 40)
decode to (red 30, green 20, blue 10, flags 40) and re-encode to the same
four bytes. -/
theorem c2_channel_swap_witness :
    readColors 1 [] (10 :: 20 :: 30 :: 40 :: []) =
      .ok ([{ r := 30, g := 20, b := 10, flags := 40 }], []) ∧
    writeColor { r := 30, g := 20, b := 10, flags := 40 } = .ok [10, 20, 30, 40] ∧
    (∀ c : Color, ColorWF c → writeColor c = .ok [c.b, c.g, c.r, c.flags]) :=
  c2_channel_swap 10 20 30 40 [] (by decide) (by decide) (by decide) (by decide)

/-- Claim C6: a bitmap record whose paletteId lies outside the range
[0, number of loaded palettes - 1] makes the bitmap load fail with the
out-of-range error. -/
theorem c6_palette_id_range (palettes : List Palette) (ds : Nat) (bmpFile : Bytes)
    (pw off h w : Nat) (it pid : Int) (rest : Bytes)
    (hpw : pw < 4294967296) (hoff : off < 4294967296) (hh : h < 4294967296)
    (hw : w < 4294967296) (hit1 : -32768 ≤ it) (hit2 : it ≤ 32767)
    (hpid1 : -32768 ≤ pid) (hpid2 : pid ≤ 32767)
    (hout : pid < 0 ∨ pid > (palettes.length : Int) - 1) :
    loadOneBitmap palettes ds bmpFile
      (u32le pw ++ u32le off ++ u32le h ++ u32le w ++ i16le it ++ i16le pid ++ rest) =
      .error "bitmap: palette_id out of range" := by
  unfold loadOneBitmap
  simp only [List.append_assoc]
  rw [readU32_u32le _ _ hpw, ok_bind]
  dsimp only
  rw [readU32_u32le _ _ hoff, ok_bind]
  dsimp only
  rw [readU32_u32le _ _ hh, ok_bind]
  dsimp only
  rw [readU32_u32le _ _ hw, ok_bind]
  dsimp only
  rw [readI16_i16le _ _ hit1 hit2, ok_bind]
  dsimp only
  rw [readI16_i16le _ _ hpid1 hpid2, ok_bind]
  dsimp only
  rw [if_pos hout]

/-- Witness for C6: with zero palettes loaded, paletteId 0 (one past the
end) fails the bitmap record load. -/
theorem c6_palette_id_range_witness :
    loadOneBitmap [] 14 (tagBM ++ List.replicate 12 0)
      (u32le 8 ++ u32le 0 ++ u32le 2 ++ u32le 5 ++ i16le 0 ++ i16le 0 ++ []) =
      .error "bitmap: palette_id out of range" :=
  c6_palette_id_range [] 14 _ 8 0 2 5 0 0 [] (by decide) (by decide) (by decide)
    (by decide) (by decide) (by decide) (by decide) (by decide) (by decide)

/-- A main stream with no palettes, no bitmaps, and one animation whose one
frame holds a single subframe with bitmapId 5 — out of range for the empty
bitmap table. -/
def cx7Prt : Bytes :=
  tagCPAL ++ u32le 0 ++
  u32le 0 ++
  u32le 1 ++ u32le 1 ++ u32le 1 ++ u32le 0 ++
  u32le 10 ++ u32le 0 ++ u32le 0 ++ u32le 0 ++ u32le 0 ++ u32le 0 ++ u32le 0 ++
  u32le 11 ++ u32le 1 ++
  [1, 0] ++
  i16le 5 ++ [7] ++ [8] ++ i16le (-1) ++ i16le 2 ++
  u32le 0

/-- A minimal companion blob: a 14-byte BMP header. -/
def cx7Bmp : Bytes := tagBM ++ List.replicate 12 0

def cx7Sub : Subframe :=
  { bitmap_id := 5, unknown := 7, subframe_id := 8, off_x := -1, off_y := 2 }

def cx7Frame : Frame :=
  { subframes := [cx7Sub], unknown := 0, optional1 := none, optional2 := none,
    optional3 := none, optional4 := none }

def cx7Anim : Animation :=
  { unknown1 := 10, bounding_box := ⟨0, 0, 0, 0⟩, offset := ⟨0, 0⟩, unknown2 := 11,
    frames := [cx7Frame], unknown3 := 0, appendix := [] }

def cx7Container : PRTFile :=
  { palettes := [], bitmaps := [], animations := [cx7Anim],
    num_optional_entries := 0, extra_data := [] }

/-- Counterexample to claim C7: `Load` succeeds on a stream whose only
subframe carries bitmapId 5 while the loaded bitmap table is empty — the
subframe bitmap index is not validated at load time. -/
theorem c7_counterexample :
    Load cx7Prt cx7Bmp = .ok cx7Container ∧
    cx7Container.bitmaps.length = 0 ∧
    ¬(∀ a ∈ cx7Container.animations, ∀ f ∈ a.frames, ∀ sf ∈ f.subframes,
        0 ≤ sf.bitmap_id ∧ sf.bitmap_id < (cx7Container.bitmaps.length : Int)) :=
  ⟨rfl, rfl, by decide⟩

/-- Claim C7 amended: the subframe parser stores the bitmap index exactly as
read from the stream; it performs no validation and does not consult the
bitmap table at all, so a successful `Load` can contain subframes whose
bitmapId is out of range. -/
theorem c7_no_validation_amended (bid : Int) (u sid : Nat) (x y : Int) (rest : Bytes)
    (hb1 : -32768 ≤ bid) (hb2 : bid ≤ 32767)
    (hx1 : -32768 ≤ x) (hx2 : x ≤ 32767) (hy1 : -32768 ≤ y) (hy2 : y ≤ 32767) :
    loadSubframe (i16le bid ++ [u] ++ [sid] ++ i16le x ++ i16le y ++ rest) =
      .ok ({ bitmap_id := bid, unknown := u, subframe_id := sid,
             off_x := x, off_y := y }, rest) := by
  unfold loadSubframe
  simp only [List.append_assoc, List.cons_append, List.nil_append]
  rw [readI16_i16le _ _ hb1 hb2, ok_bind]
  dsimp only
  rw [readU8_cons, ok_bind]
  dsimp only
  rw [readU8_cons, ok_bind]
  dsimp only
  rw [readI16_i16le _ _ hx1 hx2, ok_bind]
  dsimp only
  rw [readI16_i16le _ _ hy1 hy2, ok_bind]

/-- Witness for the amended C7: the record with bitmapId 5 parses fine
regardless of any bitmap table. -/
theorem c7_no_validation_amended_witness :
    loadSubframe (i16le 5 ++ [7] ++ [8] ++ i16le (-1) ++ i16le 2 ++ []) =
      .ok ({ bitmap_id := 5, unknown := 7, subframe_id := 8,
             off_x := -1, off_y := 2 }, []) :=
  c7_no_validation_amended 5 7 8 (-1) 2 [] (by decide) (by decide) (by decide)
    (by decide) (by decide) (by decide)

/-- A main stream with one palette entry whose head count is 0 (so the
palette holds 0 colors), one bitmap record with on-disk paddedWidth 0 but
width 5 and height 2, and no animations. -/
def cx9Prt : Bytes :=
  tagCPAL ++ u32le 1 ++ tagPPAL ++ u32le 1048 ++ tagHead ++ u32le 4 ++ u32le 0 ++
  u32le 1 ++
  u32le 0 ++ u32le 0 ++ u32le 2 ++ u32le 5 ++ i16le 0 ++ i16le 0 ++
  u32le 0 ++ u32le 0 ++ u32le 0 ++ u32le 0

def cx9Bmp : Bytes := tagBM ++ List.replicate 12 0

def cx9Bitmap : Bitmap :=
  { palette := { colors := [] }, palette_id := 0, image_type := 0,
    width := 5, height := 2, data := [] }

def cx9Container : PRTFile :=
  { palettes := [{ colors := [] }], bitmaps := [cx9Bitmap], animations := [],
    num_optional_entries := 0, extra_data := [] }

/-- Counterexample to claim C9: after a successful `Load`, the bitmap with
width 5 and height 2 has a 0-byte pixel buffer (the on-disk paddedWidth
field was 0), not the 16 bytes that `(width + 3) & ~3 * height` predicts. -/
theorem c9_counterexample :
    Load cx9Prt cx9Bmp = .ok cx9Container ∧
    cx9Container.bitmaps.map (fun b => (b.data.length, paddedWidth b.width * b.height)) =
      [(0, 16)] ∧
    ¬(∀ b ∈ cx9Container.bitmaps, b.data.length = paddedWidth b.width * b.height) :=
  ⟨rfl, rfl, by decide⟩

/-- Claim C9 amended: the pixel buffer length of a loaded bitmap is the
on-disk paddedWidth field times height, clamped to the bytes available in
the companion blob — it is not recomputed from the bitmap's width field. -/
theorem c9_buffer_length_amended (palettes : List Palette) (ds : Nat) (bmpFile : Bytes)
    (pw off h w : Nat) (it pid : Int) (rest : Bytes)
    (hpw : pw < 4294967296) (hoff : off < 4294967296) (hh : h < 4294967296)
    (hw : w < 4294967296) (hit1 : -32768 ≤ it) (hit2 : it ≤ 32767)
    (hpid1 : 0 ≤ pid) (hpid2 : pid ≤ (palettes.length : Int) - 1) (hpid3 : pid ≤ 32767) :
    ∃ bmp, loadOneBitmap palettes ds bmpFile
      (u32le pw ++ u32le off ++ u32le h ++ u32le w ++ i16le it ++ i16le pid ++ rest) =
      .ok (bmp, rest) ∧ bmp.width = w ∧ bmp.height = h ∧
      bmp.data.length = min (pw * h) (bmpFile.length - (off + ds)) := by
  unfold loadOneBitmap
  simp only [List.append_assoc]
  rw [readU32_u32le _ _ hpw, ok_bind]
  dsimp only
  rw [readU32_u32le _ _ hoff, ok_bind]
  dsimp only
  rw [readU32_u32le _ _ hh, ok_bind]
  dsimp only
  rw [readU32_u32le _ _ hw, ok_bind]
  dsimp only
  rw [readI16_i16le _ _ hit1 hit2, ok_bind]
  dsimp only
  rw [readI16_i16le _ _ (by omega) hpid3, ok_bind]
  dsimp only
  rw [if_neg (by omega)]
  refine ⟨_, rfl, rfl, rfl, ?_⟩
  simp [List.length_take, List.length_drop]

/-- Witness for the amended C9: on-disk paddedWidth 0, width 5, height 2
yields a pixel buffer of length min (0 * 2) (blob bytes past the data
start) = 0. -/
theorem c9_buffer_length_amended_witness :
    ∃ bmp, loadOneBitmap [{ colors := [] }] 14 (tagBM ++ List.replicate 12 0)
      (u32le 0 ++ u32le 0 ++ u32le 2 ++ u32le 5 ++ i16le 0 ++ i16le 0 ++ []) =
      .ok (bmp, []) ∧ bmp.width = 5 ∧ bmp.height = 2 ∧
      bmp.data.length =
        min (0 * 2) ((tagBM ++ List.replicate 12 0).length - (0 + 14)) :=
  c9_buffer_length_amended [{ colors := [] }] 14 _ 0 0 2 5 0 0 [] (by decide)
    (by decide) (by decide) (by decide) (by decide) (by decide) (by decide)
    (by decide) (by decide)

/-- A main stream with one palette entry whose head count is 0: `Load`
accepts it and produces a palette with 0 colors. -/
def cx1Prt : Bytes :=
  tagCPAL ++ u32le 1 ++ tagPPAL ++ u32le 1048 ++ tagHead ++ u32le 4 ++ u32le 0 ++
  u32le 0 ++
  u32le 0 ++ u32le 0 ++ u32le 0 ++ u32le 0

def cx1Bmp : Bytes := tagBM ++ List.replicate 12 0

def cx1Container : PRTFile :=
  { palettes := [{ colors := [] }], bitmaps := [], animations := [],
    num_optional_entries := 0, extra_data := [] }

/-- The main stream `Write` produces for `cx1Container`: it declares a
1024-byte data section but emits 0 color bytes, so the stream cannot be
loaded back. -/
def cx1Prt2 : Bytes :=
  tagCPAL ++ u32le 1 ++ tagPPAL ++ u32le 1048 ++ tagHead ++ u32le 4 ++ u32le 1 ++
  tagData ++ u32le 1024 ++
  u32le 0 ++
  u32le 0 ++ u32le 0 ++ u32le 0 ++ u32le 0

/-- Counterexample to claim C1: the container loaded from `cx1Prt` (holding
a 0-color palette) writes successfully, but loading the written bytes fails
with a short read instead of reproducing the container. -/
theorem c1_counterexample :
    Load cx1Prt cx1Bmp = .ok cx1Container ∧
    Write cx1Container = .ok (cx1Prt2, writeBMPFile []) ∧
    Load cx1Prt2 (writeBMPFile []) = .error "ran out of data" :=
  ⟨rfl, rfl, rfl⟩

/-- Claim C1 amended: for a container produced by a successful `Load` of
byte-valued streams in which additionally every palette has exactly 256
colors, every bitmap's pixel buffer length equals
`paddedWidth width * height` with that padded width representable in 32
bits, and the total pixel data fits in 32 bits, `Write` succeeds and
`Load` on its output yields a structurally equal container. -/
theorem c1_roundtrip_amended (prt bmpFile : Bytes) (c : PRTFile)
    (hbytes : ∀ x ∈ prt, x < 256)
    (hload : Load prt bmpFile = .ok c)
    (hpal : ∀ p ∈ c.palettes, p.colors.length = 256)
    (hbm : ∀ b ∈ c.bitmaps, b.data.length = paddedWidth b.width * b.height ∧
      paddedWidth b.width < 4294967296)
    (htot : totalDataLen c.bitmaps < 4294967296) :
    ∃ prt2 bmp2, Write c = .ok (prt2, bmp2) ∧ Load prt2 bmp2 = .ok c :=
  Write_Load_spec c (Load_wf prt bmpFile c hbytes hload) hpal hbm htot

/-- A main stream holding one animation with one frame carrying both
optional pairs, one appendix record, and trailing extra data. -/
def rtPrt : Bytes :=
  tagCPAL ++ u32le 0 ++
  u32le 0 ++
  u32le 1 ++ u32le 1 ++ u32le 0 ++ u32le 7 ++
  u32le 10 ++ u32le 1 ++ u32le 2 ++ u32le 3 ++ u32le 4 ++ u32le 5 ++ u32le 6 ++
  u32le 11 ++ u32le 1 ++
  [128, 129] ++ [3, 4] ++ [5, 6] ++
  u32le 1 ++ u32le 1 ++ u32le 2 ++ u32le 3 ++ u32le 4 ++
  [77, 200]

def rtBmp : Bytes := tagBM ++ List.replicate 12 0

def rtFrame : Frame :=
  { subframes := [], unknown := 1, optional1 := some 3, optional2 := some 4,
    optional3 := some 5, optional4 := some 6 }

def rtAnim : Animation :=
  { unknown1 := 10, bounding_box := ⟨1, 2, 3, 4⟩, offset := ⟨5, 6⟩, unknown2 := 11,
    frames := [rtFrame], unknown3 := 1, appendix := [(1, 2, 3, 4)] }

def rtContainer : PRTFile :=
  { palettes := [], bitmaps := [], animations := [rtAnim],
    num_optional_entries := 7, extra_data := [77, 200] }

/-- Witness for the amended C1 on a loaded container with an animation,
flag-gated optional bytes, an appendix record, and trailing extra data. -/
theorem c1_roundtrip_amended_witness :
    (∀ x ∈ rtPrt, x < 256) ∧ Load rtPrt rtBmp = .ok rtContainer ∧
    (∀ p ∈ rtContainer.palettes, p.colors.length = 256) ∧
    (∀ b ∈ rtContainer.bitmaps, b.data.length = paddedWidth b.width * b.height ∧
      paddedWidth b.width < 4294967296) ∧
    totalDataLen rtContainer.bitmaps < 4294967296 ∧
    (∃ prt2 bmp2, Write rtContainer = .ok (prt2, bmp2) ∧
      Load prt2 bmp2 = .ok rtContainer) :=
  ⟨by decide, rfl, by decide, by decide, by decide,
    c1_roundtrip_amended rtPrt rtBmp rtContainer (by decide) rfl (by decide) (by decide)
      (by decide)⟩

/-- Claim C5: when the animation loop parses successfully but the summed
frame or subframe totals differ from the header-declared totals, the
checked animation section of `Load` fails with a count-mismatch error
instead of succeeding with truncated data. -/
theorem c5_count_mismatch (numAnims numFrames numSubframes : Nat) (s : Bytes)
    (anims : List Animation) (r : Bytes)
    (h : loadAnimations numAnims [] s = .ok (anims, r))
    (hmis : sumFrames anims ≠ numFrames ∨ sumSubframes anims ≠ numSubframes) :
    ∃ e, loadAnimsChecked numAnims numFrames numSubframes s = .error e ∧
      (e = "incorrect number of frames loaded" ∨
       e = "incorrect number of subframes loaded") := by
  have hlen : anims.length = numAnims := by
    have := loadAnimations_length numAnims [] s anims r h
    simpa using this
  unfold loadAnimsChecked
  rw [h, ok_bind]
  dsimp only
  rw [if_neg (by omega)]
  by_cases hf : sumFrames anims ≠ numFrames
  · rw [if_pos hf]
    exact ⟨_, rfl, Or.inl rfl⟩
  · rw [if_neg hf]
    push_neg at hf
    have hs : sumSubframes anims ≠ numSubframes := by tauto
    rw [if_pos hs]
    exact ⟨_, rfl, Or.inr rfl⟩

def emptyFrame : Frame :=
  { subframes := [], unknown := 0, optional1 := none, optional2 := none,
    optional3 := none, optional4 := none }

/-- The animation-section bytes of one animation declaring 4 empty frames. -/
def c5Stream : Bytes :=
  u32le 10 ++ u32le 0 ++ u32le 0 ++ u32le 0 ++ u32le 0 ++ u32le 0 ++ u32le 0 ++
  u32le 11 ++ u32le 4 ++
  [0, 0] ++ [0, 0] ++ [0, 0] ++ [0, 0] ++ u32le 0

def c5Anim : Animation :=
  { unknown1 := 10, bounding_box := ⟨0, 0, 0, 0⟩, offset := ⟨0, 0⟩, unknown2 := 11,
    frames := [emptyFrame, emptyFrame, emptyFrame, emptyFrame], unknown3 := 0,
    appendix := [] }

/-- Witness for C5 at the spec example: the header declares numFrames = 5
but the single animation holds only 4 frames, so the load fails with the
frame-count mismatch error. -/
theorem c5_count_mismatch_witness :
    loadAnimations 1 [] c5Stream = .ok ([c5Anim], []) ∧
    (sumFrames [c5Anim] ≠ 5 ∨ sumSubframes [c5Anim] ≠ 0) ∧
    ∃ e, loadAnimsChecked 1 5 0 c5Stream = .error e ∧
      (e = "incorrect number of frames loaded" ∨
       e = "incorrect number of subframes loaded") :=
  ⟨rfl, by decide, c5_count_mismatch 1 5 0 c5Stream [c5Anim] [] rfl (by decide)⟩

def cx8Prt : Bytes :=
  tagCPAL ++ u32le 1 ++ tagPPAL ++ u32le 1048 ++ tagHead ++ u32le 4 ++ u32le 0 ++
  u32le 0 ++
  u32le 0 ++ u32le 0 ++ u32le 0 ++ u32le 0

def cx8Bmp : Bytes := tagBM ++ List.replicate 12 0

def cx8Container : PRTFile :=
  { palettes := [{ colors := [] }], bitmaps := [], animations := [],
    num_optional_entries := 0, extra_data := [] }

/-- Counterexample to claim C8: a palette entry whose head section carries
count 0 is accepted by `Load` and produces a palette with 0 colors, not
256. -/
theorem c8_counterexample :
    Load cx8Prt cx8Bmp = .ok cx8Container ∧
    cx8Container.palettes.map (fun p => p.colors.length) = [0] ∧
    ¬(∀ p ∈ cx8Container.palettes, p.colors.length = 256) :=
  ⟨rfl, rfl, by decide⟩

/-- Claim C8 amended: a palette entry following the canonical tag sequence
PPAL (size 1048), head (size 4, nested-tag count 1), data (size 1024) loads
exactly 256 colors; the 32-bit head count controls how many further tags
are read, so non-canonical counts can produce palettes of other sizes. -/
theorem c8_canonical_palette_amended (cbytes rest : Bytes) (f : Nat)
    (hlen : cbytes.length = 1024) :
    ∃ colors, loadPalTags (f + 3) 2 []
      (tagPPAL ++ u32le 1048 ++ tagHead ++ u32le 4 ++ u32le 1 ++ tagData ++
        u32le 1024 ++ cbytes ++ rest) = .ok (colors, rest) ∧ colors.length = 256 := by
  obtain ⟨cs, hcs, hcslen⟩ := readColors_complete 256 [] (cbytes ++ rest)
    (by simp [hlen])
  have hdrop : (cbytes ++ rest).drop (4 * 256) = rest := by
    rw [show (4 * 256 : Nat) = 1024 from rfl, ← hlen, List.drop_left]
  refine ⟨cs, ?_, by simpa using hcslen⟩
  simp only [List.append_assoc]
  show loadPalTags (f + 2 + 1) (1 + 1) [] _ = _
  simp only [loadPalTags]
  rw [readTag_spec tagPPAL 1048 _ rfl (by norm_num), ok_bind]
  dsimp only
  rw [if_pos rfl, if_neg (by norm_num)]
  show loadPalTags (f + 1 + 1) (0 + 1) [] _ = _
  simp only [loadPalTags]
  rw [readTag_spec tagHead 4 _ rfl (by norm_num), ok_bind]
  dsimp only
  rw [if_neg (by decide), if_neg (by decide), if_pos rfl, if_neg (by norm_num)]
  rw [readU32_u32le 1 _ (by norm_num), ok_bind]
  dsimp only
  show loadPalTags (f + 1) (0 + 1) [] _ = _
  simp only [loadPalTags]
  rw [readTag_spec tagData 1024 _ rfl (by norm_num), ok_bind]
  dsimp only
  rw [if_neg (by decide), if_neg (by decide), if_neg (by decide), if_pos rfl,
    if_neg (by norm_num)]
  rw [hdrop] at hcs
  rw [hcs, ok_bind]

/-- Witness for the amended C8 on a canonical palette entry with 1024 zero
data bytes. -/
theorem c8_canonical_palette_amended_witness :
    (List.replicate 1024 0 : Bytes).length = 1024 ∧
    ∃ colors, loadPalTags (0 + 3) 2 []
      (tagPPAL ++ u32le 1048 ++ tagHead ++ u32le 4 ++ u32le 1 ++ tagData ++
        u32le 1024 ++ List.replicate 1024 0 ++ []) = .ok (colors, []) ∧
      colors.length = 256 :=
  ⟨by rw [List.length_replicate],
    c8_canonical_palette_amended (List.replicate 1024 0) [] 0 (by rw [List.length_replicate])⟩

/-- Claim C3: for a frame parsed from a stream whose two leading bytes are
b0 and b1, bit 0x80 of b0 gates optional1/optional2 (set: the next two
bytes are read and stored as present values, and the count is the masked
byte; clear: the fields are genuinely absent), bit 0x80 of b1 independently
gates optional3/optional4 and masks the unknown value, and the number of
subframe records read equals the post-mask count value. -/
theorem c3_optional_gating (b0 b1 : Nat) (rest : Bytes) (f : Frame) (r : Bytes)
    (hb0 : b0 < 256) (hb1 : b1 < 256)
    (h : loadFrame (b0 :: b1 :: rest) = .ok (f, r)) :
    (b0 &&& 0x80 ≠ 0 → ∃ o1 o2 t, rest = o1 :: o2 :: t ∧
      f.optional1 = some o1 ∧ f.optional2 = some o2) ∧
    (b0 &&& 0x80 = 0 → f.optional1 = none ∧ f.optional2 = none) ∧
    (b1 &&& 0x80 ≠ 0 → ∃ o3 o4 t,
      (if b0 &&& 0x80 ≠ 0 then rest.drop 2 else rest) = o3 :: o4 :: t ∧
      f.optional3 = some o3 ∧ f.optional4 = some o4) ∧
    (b1 &&& 0x80 = 0 → f.optional3 = none ∧ f.optional4 = none) ∧
    f.unknown = b1 &&& 0x7F ∧
    f.subframes.length = b0 &&& 0x7F := by
  unfold loadFrame at h
  rw [readU8Pair_cons, ok_bind] at h
  dsimp only at h
  rw [bind_ok_iff] at h
  obtain ⟨⟨⟨cnt, o1, o2⟩, s2⟩, h2, h⟩ := h
  dsimp only at h
  rw [bind_ok_iff] at h
  obtain ⟨⟨⟨unk, o3, o4⟩, s3⟩, h3, h⟩ := h
  dsimp only at h
  rw [bind_ok_iff] at h
  obtain ⟨⟨sfs, s4⟩, h4, h⟩ := h
  dsimp only at h
  injection h with hx
  injection hx with hy hz
  subst hz
  have hflen : sfs.length = cnt := by
    simpa using loadSubframes_length cnt [] s3 sfs s4 h4
  obtain ⟨hset2, hclear2⟩ := readOptPair_inv b0 rest cnt o1 o2 s2 h2
  obtain ⟨hset3, hclear3⟩ := readOptPair_inv b1 s2 unk o3 o4 s3 h3
  subst hy
  refine ⟨?_, ?_, ?_, ?_, ?_, ?_⟩
  · intro hflag
    obtain ⟨a, b, t, hs, hv, ho1, ho2, hr⟩ := hset2 hflag
    exact ⟨a, b, t, hs, ho1, ho2⟩
  · intro hflag
    obtain ⟨hv, ho1, ho2, hr⟩ := hclear2 hflag
    exact ⟨ho1, ho2⟩
  · intro hflag
    by_cases hf0 : b0 &&& 128 ≠ 0
    · obtain ⟨a, b, t, hs, hv, ho1x, ho2x, hr⟩ := hset2 hf0
      obtain ⟨a3, b3, t3, hs3, hv3, ho3x, ho4x, hr3⟩ := hset3 hflag
      rw [if_pos hf0, hs]
      refine ⟨a3, b3, t3, ?_, ho3x, ho4x⟩
      show t = a3 :: b3 :: t3
      rw [← hr]
      exact hs3
    · push_neg at hf0
      obtain ⟨hv, ho1x, ho2x, hr⟩ := hclear2 hf0
      obtain ⟨a3, b3, t3, hs3, hv3, ho3x, ho4x, hr3⟩ := hset3 hflag
      rw [if_neg (fun hne => hne hf0)]
      refine ⟨a3, b3, t3, ?_, ho3x, ho4x⟩
      rw [← hr]
      exact hs3
  · intro hflag
    obtain ⟨hv, ho3x, ho4x, hr⟩ := hclear3 hflag
    exact ⟨ho3x, ho4x⟩
  · show unk = b1 &&& 0x7F
    by_cases hf1 : b1 &&& 128 ≠ 0
    · obtain ⟨a, b, t, hs, hv, hox, hoy, hr⟩ := hset3 hf1
      exact hv
    · push_neg at hf1
      obtain ⟨hv, hox, hoy, hr⟩ := hclear3 hf1
      rw [hv, land127_of_lt128 b1 (lt128_of_flag_clear b1 hb1 hf1)]
  · show sfs.length = b0 &&& 0x7F
    rw [hflen]
    by_cases hf0 : b0 &&& 128 ≠ 0
    · obtain ⟨a, b, t, hs, hv, hox, hoy, hr⟩ := hset2 hf0
      exact hv
    · push_neg at hf0
      obtain ⟨hv, hox, hoy, hr⟩ := hclear2 hf0
      rw [hv, land127_of_lt128 b0 (lt128_of_flag_clear b0 hb0 hf0)]

def c3Sub : Subframe :=
  { bitmap_id := 0, unknown := 0, subframe_id := 0, off_x := 0, off_y := 0 }

def c3Frame : Frame :=
  { subframes := [c3Sub, c3Sub], unknown := 1, optional1 := some 9, optional2 := some 8,
    optional3 := some 7, optional4 := some 6 }

/-- The frame body after the two leading bytes 130 and 129: two optional
pairs then two 8-byte subframe records. -/
def c3Rest : Bytes := [9, 8] ++ [7, 6] ++ List.replicate 16 0

/-- Witness for C3 at leading bytes 130 (0x82: flag set, count 2) and 129
(0x81: flag set, unknown 1). -/
theorem c3_optional_gating_witness :
    loadFrame (130 :: 129 :: c3Rest) = .ok (c3Frame, []) ∧
    (130 &&& 0x80 ≠ 0 → ∃ o1 o2 t, c3Rest = o1 :: o2 :: t ∧
      c3Frame.optional1 = some o1 ∧ c3Frame.optional2 = some o2) ∧
    (130 &&& 0x80 = 0 → c3Frame.optional1 = none ∧ c3Frame.optional2 = none) ∧
    (129 &&& 0x80 ≠ 0 → ∃ o3 o4 t,
      (if 130 &&& 0x80 ≠ 0 then c3Rest.drop 2 else c3Rest) = o3 :: o4 :: t ∧
      c3Frame.optional3 = some o3 ∧ c3Frame.optional4 = some o4) ∧
    (129 &&& 0x80 = 0 → c3Frame.optional3 = none ∧ c3Frame.optional4 = none) ∧
    c3Frame.unknown = 129 &&& 0x7F ∧
    c3Frame.subframes.length = 130 &&& 0x7F :=
  ⟨rfl, c3_optional_gating 130 129 c3Rest c3Frame [] (by decide) (by decide) rfl⟩

def cx4Frame : Frame :=
  { subframes := [], unknown := 0, optional1 := some 3, optional2 := none,
    optional3 := none, optional4 := none }

/-- Counterexample to claim C4: for a frame with optional1 = 3 present and
optional2 absent, `Write` does not emit the flag byte followed by two
optional bytes — it fails with a TypeError from `int(None)`. -/
theorem c4_counterexample :
    writeFrame cx4Frame = .error "TypeError: int() argument is None" := rfl

/-- Claim C4 amended: presence of either member of an optional pair sets
bit 0x80 on the emitted leading byte, but both bytes of the pair are
emitted only when both members are present; when exactly one member is
present, `Write` fails with a TypeError from `int(None)` instead of
emitting the pair. -/
theorem c4_mixed_presence_amended (sfs : List Subframe) (unk a : Nat)
    (o3 o4 : Option Nat)
    (hlen : sfs.length < 128) (hunk : unk < 128) (ha : a < 256)
    (hsfs : ∀ sf ∈ sfs, SubframeWF sf) (hp34 : optPairWF o3 o4) :
    writeFrame ⟨sfs, unk, some a, none, o3, o4⟩ =
      .error "TypeError: int() argument is None" ∧
    (∀ b, b < 256 →
      ∃ bs, writeFrame ⟨sfs, unk, some a, some b, o3, o4⟩ = .ok bs ∧
        bs.head? = some (sfs.length ||| 0x80) ∧ (sfs.length ||| 0x80) &&& 0x80 ≠ 0 ∧
        (bs.drop 2).take 2 = [a, b]) := by
  obtain ⟨sfb, hsfb, -⟩ := writeSubframes_spec sfs hsfs
  rcases ho3 : o3 with _ | x3 <;> rcases ho4 : o4 with _ | x4 <;> rw [ho3, ho4] at hp34
  case none.some => exact hp34.elim
  case some.none => exact hp34.elim
  case none.none =>
    constructor
    · unfold writeFrame
      simp [pure_eq_ok, ok_bind, intOpt, error_bind,
        packU8_ok (sfs.length ||| 128) (lor128_facts sfs.length hlen).1,
        packU8_ok unk (by omega)]
    · intro b hb
      refine ⟨[sfs.length ||| 0x80, unk, a, b] ++ sfb, ?_, rfl,
        (lor128_facts sfs.length hlen).2.1, rfl⟩
      unfold writeFrame
      simp [pure_eq_ok, ok_bind, intOpt_some, hsfb,
        packU8_ok (sfs.length ||| 128) (lor128_facts sfs.length hlen).1,
        packU8_ok unk (by omega), packU8_ok a ha, packU8_ok b hb]
  case some.some =>
    obtain ⟨hx3, hx4⟩ := hp34
    constructor
    · unfold writeFrame
      simp [pure_eq_ok, ok_bind, intOpt, error_bind,
        packU8_ok (sfs.length ||| 128) (lor128_facts sfs.length hlen).1,
        packU8_ok (unk ||| 128) (lor128_facts unk hunk).1]
    · intro b hb
      refine ⟨[sfs.length ||| 0x80, unk ||| 0x80, a, b, x3, x4] ++ sfb, ?_, rfl,
        (lor128_facts sfs.length hlen).2.1, rfl⟩
      unfold writeFrame
      simp [pure_eq_ok, ok_bind, intOpt_some, hsfb,
        packU8_ok (sfs.length ||| 128) (lor128_facts sfs.length hlen).1,
        packU8_ok (unk ||| 128) (lor128_facts unk hunk).1,
        packU8_ok a ha, packU8_ok b hb, packU8_ok x3 hx3, packU8_ok x4 hx4]

/-- Witness for the amended C4 at the spec example optional1 = 3 with an
empty subframe list. -/
theorem c4_mixed_presence_amended_witness :
    writeFrame ⟨[], 0, some 3, none, none, none⟩ =
      .error "TypeError: int() argument is None" ∧
    (∀ b, b < 256 →
      ∃ bs, writeFrame ⟨[], 0, some 3, some b, none, none⟩ = .ok bs ∧
        bs.head? = some (([] : List Subframe).length ||| 0x80) ∧
        (([] : List Subframe).length ||| 0x80) &&& 0x80 ≠ 0 ∧
        (bs.drop 2).take 2 = [3, b]) :=
  c4_mixed_presence_amended [] 0 3 none none (by decide) (by decide) (by decide)
    (by decide) (by decide)

/-- Claim C10: for a well-formed in-memory frame whose subframe list length
lies in [128, 255] and whose optional1/optional2 are both absent, `Write`
raises no error, yet the emitted subframe-count byte (the length value
itself) has bit 0x80 set, so it no longer encodes the true subframe count:
masking it back yields a different value. -/
theorem c10_count_overflow (f : Frame)
    (h1 : 128 ≤ f.subframes.length) (h2 : f.subframes.length ≤ 255)
    (ho1 : f.optional1 = none) (ho2 : f.optional2 = none)
    (hunk : f.unknown < 128) (hp34 : optPairWF f.optional3 f.optional4)
    (hsfs : ∀ sf ∈ f.subframes, SubframeWF sf) :
    ∃ bs, writeFrame f = .ok bs ∧ bs.head? = some f.subframes.length ∧
      f.subframes.length &&& 0x80 ≠ 0 ∧
      f.subframes.length &&& 0x7F ≠ f.subframes.length := by
  obtain ⟨sfb, hsfb, -⟩ := writeSubframes_spec f.subframes hsfs
  have hmask := mask_of_byte f.subframes.length (by omega) h1
  rcases ho3 : f.optional3 with _ | x3 <;> rcases ho4 : f.optional4 with _ | x4 <;>
    rw [ho3, ho4] at hp34
  case none.some => exact hp34.elim
  case some.none => exact hp34.elim
  case none.none =>
    refine ⟨[f.subframes.length, f.unknown] ++ sfb, ?_, rfl, hmask.1,
      by rw [hmask.2]; omega⟩
    unfold writeFrame
    simp [ho1, ho2, ho3, ho4, hsfb, pure_eq_ok, ok_bind,
      packU8_ok f.subframes.length (by omega), packU8_ok f.unknown (by omega)]
  case some.some =>
    obtain ⟨hx3, hx4⟩ := hp34
    refine ⟨[f.subframes.length, f.unknown ||| 128, x3, x4] ++ sfb, ?_, rfl, hmask.1,
      by rw [hmask.2]; omega⟩
    unfold writeFrame
    simp [ho1, ho2, ho3, ho4, hsfb, pure_eq_ok, ok_bind, intOpt_some,
      packU8_ok f.subframes.length (by omega),
      packU8_ok (f.unknown ||| 128) (lor128_facts f.unknown hunk).1,
      packU8_ok x3 hx3, packU8_ok x4 hx4]

def c10Sub : Subframe :=
  { bitmap_id := 0, unknown := 0, subframe_id := 0, off_x := 0, off_y := 0 }

def c10Frame : Frame :=
  { subframes := List.replicate 130 c10Sub, unknown := 1, optional1 := none,
    optional2 := none, optional3 := none, optional4 := none }

set_option maxRecDepth 16384 in
/-- Witness for C10 on a frame with 130 subframes: `Write` succeeds and the
emitted count byte 130 has the flag bit set, masking back to 2, not 130. -/
theorem c10_count_overflow_witness :
    (128 ≤ c10Frame.subframes.length ∧ c10Frame.subframes.length ≤ 255) ∧
    ∃ bs, writeFrame c10Frame = .ok bs ∧ bs.head? = some c10Frame.subframes.length ∧
      c10Frame.subframes.length &&& 0x80 ≠ 0 ∧
      c10Frame.subframes.length &&& 0x7F ≠ c10Frame.subframes.length :=
  ⟨⟨by decide, by decide⟩,
    c10_count_overflow c10Frame (by decide) (by decide) rfl rfl (by decide) (by decide)
      (by decide)⟩

end PRT
